import Mathlib

/-!
Shallow embedding of the Harness account migration tool
(`harness_migration.py`) and verification of its specification claims.

The embedding models:
* JSON-like values (`JVal`) standing for the Python dicts/lists/strings the
  script manipulates, together with Python truthiness and `dict.get`;
* the idempotency classifier `is_resource_already_exists_error`;
* the pagination engine `HarnessAPIClient._fetch_paginated` (as a loop over an
  abstract response function, instrumented with an event trace);
* the storage-mode classifier `HarnessAPIClient.is_gitx_resource`;
* the scope enumerators `HarnessMigrator._get_all_scopes` /
  `_get_project_scopes`;
* the phase loops `migrate_organizations`, `migrate_projects`,
  `migrate_pipelines` and the phase sequencing of `migrate_all`.

Fallible Python paths (attribute errors on non-dict values) are modelled with
`Option`; network effects are modelled by passing explicit response functions;
`time.sleep`, file exports and POST calls are recorded as events in a trace.
-/

namespace HarnessMigration

/-- JSON-like values: the Python data the script manipulates. -/
inductive JVal where
  | jnull : JVal
  | jnum (n : Int) : JVal
  | jstr (s : String) : JVal
  | jarr (items : List JVal) : JVal
  | jobj (fields : List (String × JVal)) : JVal

mutual

/-- Structural boolean equality on `JVal`. -/
def JVal.beq : JVal → JVal → Bool
  | .jnull, .jnull => true
  | .jnum a, .jnum b => a == b
  | .jstr a, .jstr b => a == b
  | .jarr as, .jarr bs => JVal.beqList as bs
  | .jobj as, .jobj bs => JVal.beqFields as bs
  | _, _ => false

/-- Boolean equality on lists of `JVal`. -/
def JVal.beqList : List JVal → List JVal → Bool
  | [], [] => true
  | a :: as, b :: bs => JVal.beq a b && JVal.beqList as bs
  | _, _ => false

/-- Boolean equality on dict field lists. -/
def JVal.beqFields : List (String × JVal) → List (String × JVal) → Bool
  | [], [] => true
  | (k1, v1) :: as, (k2, v2) :: bs =>
      k1 == k2 && JVal.beq v1 v2 && JVal.beqFields as bs
  | _, _ => false

end

instance : BEq JVal := ⟨JVal.beq⟩

mutual

theorem JVal.beq_iff : ∀ a b : JVal, JVal.beq a b = true ↔ a = b
  | .jnull, .jnull => by simp [JVal.beq]
  | .jnum a, .jnum b => by simp [JVal.beq]
  | .jstr a, .jstr b => by simp [JVal.beq]
  | .jarr as, .jarr bs => by
      simp only [JVal.beq, JVal.beqList_iff as bs, JVal.jarr.injEq]
  | .jobj as, .jobj bs => by
      simp only [JVal.beq, JVal.beqFields_iff as bs, JVal.jobj.injEq]
  | .jnull, .jnum _ | .jnull, .jstr _ | .jnull, .jarr _ | .jnull, .jobj _
  | .jnum _, .jnull | .jnum _, .jstr _ | .jnum _, .jarr _ | .jnum _, .jobj _
  | .jstr _, .jnull | .jstr _, .jnum _ | .jstr _, .jarr _ | .jstr _, .jobj _
  | .jarr _, .jnull | .jarr _, .jnum _ | .jarr _, .jstr _ | .jarr _, .jobj _
  | .jobj _, .jnull | .jobj _, .jnum _ | .jobj _, .jstr _ | .jobj _, .jarr _ => by
      simp [JVal.beq]

theorem JVal.beqList_iff : ∀ as bs : List JVal, JVal.beqList as bs = true ↔ as = bs
  | [], [] => by simp [JVal.beqList]
  | a :: as, b :: bs => by
      simp [JVal.beqList, JVal.beq_iff a b, JVal.beqList_iff as bs]
  | [], _ :: _ => by simp [JVal.beqList]
  | _ :: _, [] => by simp [JVal.beqList]

theorem JVal.beqFields_iff :
    ∀ as bs : List (String × JVal), JVal.beqFields as bs = true ↔ as = bs
  | [], [] => by simp [JVal.beqFields]
  | (k1, v1) :: as, (k2, v2) :: bs => by
      rw [JVal.beqFields]
      simp only [Bool.and_eq_true, beq_iff_eq, JVal.beq_iff v1 v2,
        JVal.beqFields_iff as bs, List.cons.injEq, Prod.mk.injEq, and_assoc]
  | [], _ :: _ => by simp [JVal.beqFields]
  | _ :: _, [] => by simp [JVal.beqFields]

end

instance : DecidableEq JVal := fun a b => decidable_of_iff _ (JVal.beq_iff a b)

/-- Lookup of a key in an association-list dict (Python `d[k]` / `k in d`;
dicts have unique keys, so first-match lookup). -/
def jLookup : List (String × JVal) → String → Option JVal
  | [], _ => none
  | (k, v) :: rest, key => if k == key then some v else jLookup rest key

/-- Python `key in d`. -/
def jHasKey (fields : List (String × JVal)) (key : String) : Bool :=
  (jLookup fields key).isSome

/-- Python truthiness of a value (`if v:`). -/
def pyTruthy : JVal → Bool
  | .jnull => false
  | .jnum n => n != 0
  | .jstr s => s != ""
  | .jarr items => !items.isEmpty
  | .jobj fields => !fields.isEmpty

/-- Python `v.get(key, dflt)`: requires `v` to be a dict, otherwise the
script raises `AttributeError` (modelled as `none`). -/
def pyDictGetD (v : JVal) (key : String) (dflt : JVal) : Option JVal :=
  match v with
  | .jobj fields => some ((jLookup fields key).getD dflt)
  | _ => none

/-- Python `v.get(key)` (default `None`): requires `v` to be a dict. -/
def pyDictGet (v : JVal) (key : String) : Option JVal :=
  match v with
  | .jobj fields => some ((jLookup fields key).getD .jnull)
  | _ => none

/-- Substring search on character lists (Python `sub in s`). -/
def listContainsSub (sub : List Char) : List Char → Bool
  | [] => sub.isPrefixOf []
  | c :: t => sub.isPrefixOf (c :: t) || listContainsSub sub t

/-- Python `sub in s` on strings. -/
def strContains (s sub : String) : Bool :=
  listContainsSub sub.data s.data

/-- Python `s.lower()`, as a character list (the script only feeds it ASCII
error bodies; `Char.toLower` matches `str.lower` on ASCII). -/
def pyLower (s : String) : List Char :=
  s.data.map Char.toLower

/-!
## `is_resource_already_exists_error` (harness_migration.py lines 53-101)

The idempotency classifier. `statusCode` gate, then lower-cased body scanned
for specific error codes and definitive error-message fragments.
-/

/-- Source list `specific_error_codes`. -/
def specificErrorCodes : List String :=
  ["DUPLICATE_FIELD", "DUPLICATE_FILE_IMPORT", "INVALID_REQUEST"]

/-- Source list `definitive_error_messages`. -/
def definitiveErrorMessages : List String :=
  ["already exists",
   "already present",
   "already been imported",
   "duplicate",
   "already been created",
   "resource already",
   "cannot be used",
   "must be unique",
   "already exists or",
   "e11000 duplicate key",
   "dup key",
   "identifier must be unique",
   "already exists or is soft deleted",
   "already exists or has been deleted",
   "already exists in this scope",
   "already exists."]

/-- `is_resource_already_exists_error(status_code, response_text)`:
returns `false` unless the status is 400, 409 or 500; otherwise scans the
lower-cased body for duplicate-resource error codes (with an extra
"already ..." requirement for `INVALID_REQUEST`) and for definitive
error-message fragments. -/
def is_resource_already_exists_error (statusCode : Nat) (responseText : String) : Bool :=
  if !(statusCode == 400 || statusCode == 409 || statusCode == 500) then
    false
  else
    let responseLower := pyLower responseText
    let codeHit := specificErrorCodes.any fun errorCode =>
      listContainsSub (pyLower errorCode) responseLower &&
        (if errorCode == "INVALID_REQUEST" then
          ["already exists", "already been imported", "already present"].any
            fun msg => listContainsSub msg.data responseLower
        else true)
    let msgHit := definitiveErrorMessages.any fun errorMsg =>
      listContainsSub errorMsg.data responseLower
    codeHit || msgHit

/-!
## Event traces and HTTP responses

Network calls, file exports, log messages and `time.sleep(0.5)` calls are
recorded as events so that temporal claims can be stated over traces.
-/

/-- Observable effects of a run. -/
inductive Event where
  | pageFetch (paginationValue : Nat) : Event
  | writeCall (resource : String) (payload : JVal) : Event
  | exportFile (resource : String) (identifier : JVal) : Event
  | logAlreadyExists (resource : String) (identifier : JVal) : Event
  | sleep : Event
deriving DecidableEq

/-- An HTTP response as seen by the script: status code and JSON body. -/
structure HttpResponse where
  statusCode : Nat
  body : JVal
deriving DecidableEq

/-- `Event.pageFetch` recogniser. -/
def isPageFetch : Event → Bool
  | .pageFetch _ => true
  | _ => false

/-- Number of page fetches in a trace. -/
def countFetches (trace : List Event) : Nat :=
  (trace.filter isPageFetch).length

/-- Number of `time.sleep` events in a trace. -/
def countSleeps (trace : List Event) : Nat :=
  (trace.filter fun e => e == Event.sleep).length

/-!
## `HarnessAPIClient._fetch_paginated` (harness_migration.py lines 183-299)

The loop keeps a page counter and an accumulated item list. Each iteration
computes the pagination value (`page` or `page * page_size`), issues the
request, stops on a non-200 status, extracts the content batch by walking
`content_path`, appends it, and stops when the batch is short, when
`total_pages_path` resolves and the last page is reached, or when the page
counter passes the hard ceiling of 10000. The structural `fuel` argument
only bounds the recursion for Lean; `fetchPaginated` passes 10001, which the
in-code ceiling check (`page > 10000` after the increment, so pages
0..10000, at most 10001 iterations) never lets the loop exhaust —
`fetchPaginatedLoop_fuel_irrelevant` below proves the fuel value immaterial.
-/

/-- Python `content_path.split('.')`. -/
def splitOnDot (s : List Char) : List String :=
  go s []
  where
    /-- Accumulates the current segment in reverse. -/
    go : List Char → List Char → List String
    | [], acc => [⟨acc.reverse⟩]
    | c :: rest, acc =>
        if c = '.' then ⟨acc.reverse⟩ :: go rest [] else go rest (c :: acc)

/-- The `for key in content_path.split('.')` walk of lines 253-259: empty
keys are skipped, a lookup on a dict defaults to `[]`, and a non-dict value
breaks out with `[]`. -/
def walkContentPath : List String → JVal → JVal
  | [], content => content
  | key :: keys, content =>
      if key == "" then walkContentPath keys content
      else
        match content with
        | .jobj fields => walkContentPath keys ((jLookup fields key).getD (.jarr []))
        | _ => .jarr []

/-- Content extraction (lines 247-262): empty path means the response itself
is the array; any non-list result collapses to `[]`. -/
def extractContent (responseData : JVal) (contentPath : String) : List JVal :=
  if contentPath == "" then
    match responseData with
    | .jarr items => items
    | _ => []
  else
    match walkContentPath (splitOnDot contentPath.data) responseData with
    | .jarr items => items
    | _ => []

/-- The `total_pages` walk of lines 268-280: `get` with default `None`, and
a non-dict intermediate value breaks out with `None`. -/
def walkTotalPages : List String → Option JVal → Option JVal
  | [], obj => obj
  | _ :: _, none => none
  | key :: keys, some v =>
      match v with
      | .jobj fields => walkTotalPages keys (jLookup fields key)
      | _ => none

/-- Total-pages resolution: only a numeric value counts. -/
def extractTotalPages (responseData : JVal) (totalPagesPath : String) : Option Int :=
  match walkTotalPages (splitOnDot totalPagesPath.data) (some responseData) with
  | some (.jnum n) => some n
  | _ => none

/-- Lines 219-224: offset-based pagination passes `page * page_size`,
page-based passes the page index. -/
def paginationValueOf (useOffset : Bool) (page pageSize : Nat) : Nat :=
  if useOffset then page * pageSize else page

/-- Line 287: `total_pages is not None and page >= total_pages - 1`. -/
def lastPageReached (totalPages : Option Int) (page : Nat) : Bool :=
  match totalPages with
  | some t => decide ((page : Int) ≥ t - 1)
  | none => false

/-- One-to-one translation of the `while True` pagination loop.
State: current `page`, accumulated `allItems`, event `trace`. -/
def fetchPaginatedLoop (respond : Nat → HttpResponse) (pageSize : Nat)
    (contentPath totalPagesPath : String) (useOffset : Bool) :
    Nat → List JVal → List Event → Nat → List JVal × List Event
  | _page, allItems, trace, 0 => (allItems, trace)
  | page, allItems, trace, fuel + 1 =>
      let paginationValue := paginationValueOf useOffset page pageSize
      let response := respond paginationValue
      let trace := trace ++ [Event.pageFetch paginationValue]
      if response.statusCode != 200 then
        (allItems, trace)
      else
        let content := extractContent response.body contentPath
        let allItems := allItems ++ content
        let totalPages := extractTotalPages response.body totalPagesPath
        if content.length < pageSize then
          (allItems, trace)
        else if lastPageReached totalPages page then
          (allItems, trace)
        else if page + 1 > 10000 then
          (allItems, trace)
        else
          fetchPaginatedLoop respond pageSize contentPath totalPagesPath useOffset
            (page + 1) allItems trace fuel

/-- `_fetch_paginated`, with the source's default arguments. -/
def fetchPaginated (respond : Nat → HttpResponse) (pageSize : Nat := 100)
    (contentPath : String := "data.content")
    (totalPagesPath : String := "data.totalPages")
    (useOffset : Bool := false) : List JVal × List Event :=
  fetchPaginatedLoop respond pageSize contentPath totalPagesPath useOffset 0 [] [] 10001

/-- The fuel argument is immaterial as long as it covers the pages the
in-code ceiling still allows: any two sufficient fuel values give
the same result, so `fetchPaginated`'s choice of 10001 is not a semantic
truncation. -/
theorem fetchPaginatedLoop_fuel_irrelevant (respond : Nat → HttpResponse)
    (pageSize : Nat) (contentPath totalPagesPath : String) (useOffset : Bool) :
    ∀ fuel fuel' page allItems trace, 10001 - page < fuel → 10001 - page < fuel' →
      fetchPaginatedLoop respond pageSize contentPath totalPagesPath useOffset
        page allItems trace fuel =
      fetchPaginatedLoop respond pageSize contentPath totalPagesPath useOffset
        page allItems trace fuel' := by
  intro fuel
  induction fuel with
  | zero => intro fuel' page _ _ h _; omega
  | succ f ih =>
      intro fuel' page allItems trace _h hf'
      match fuel', hf' with
      | f' + 1, hf' =>
        simp only [fetchPaginatedLoop]
        split
        · rfl
        · split
          · rfl
          · split
            · rfl
            · split
              · rfl
              · rename_i hceil
                have hpage : page + 1 ≤ 10000 := by omega
                exact ih f' (page + 1) _ _ (by omega) (by omega)

/-- Item number `i` of the mock collections below. -/
def JVal.ofNat (i : Nat) : JVal := .jnum i

/-- Mock paginated endpoint of the engine's default convention: `n` items
(numbered 0..n-1) served in pages of `pageSize`, with `data.content` and
`data.totalPages` (the ceiling `⌈n / pageSize⌉`). -/
def mockRespond (n pageSize : Nat) (p : Nat) : HttpResponse :=
  { statusCode := 200,
    body := .jobj [("data", .jobj
      [("content", .jarr ((((List.range n).drop (p * pageSize)).take pageSize).map
          JVal.ofNat)),
       ("totalPages", .jnum ((n + pageSize - 1) / pageSize : Nat))])] }

/-- Adversarial endpoint: always a full page (for `pageSize` 1) and no
resolvable total-pages value, so only the hard ceiling can stop the loop. -/
def adversarialRespond (p : Nat) : HttpResponse :=
  { statusCode := 200,
    body := .jobj [("data", .jobj [("content", .jarr [JVal.ofNat p])])] }

lemma mock_status_eq (n P p : Nat) : (mockRespond n P p).statusCode = 200 := rfl

lemma mock_content_eq (n P p : Nat) :
    extractContent (mockRespond n P p).body "data.content" =
      (((List.range n).drop (p * P)).take P).map JVal.ofNat := rfl

lemma mock_totalPages_eq (n P p : Nat) :
    extractTotalPages (mockRespond n P p).body "data.totalPages" =
      some (((n + P - 1) / P : Nat) : Int) := rfl

lemma ceil_div_le_iff (n P k : Nat) (hP : 0 < P) :
    (n + P - 1) / P ≤ k ↔ n ≤ k * P := by
  rw [Nat.mul_comm k P, Nat.div_le_iff_le_mul_add_pred hP]
  generalize P * k = m
  omega

/-- Running the loop against the canonical mock endpoint from page `page`
onward: it returns the items from position `page * P` on, and issues one
request per remaining page (always at least one request). -/
lemma mock_loop_eq (n P : Nat) (hP : 0 < P) (hn : n ≤ 10001 * P) :
    ∀ fuel page allItems trace,
      max 1 ((n + P - 1) / P - page) ≤ fuel →
      fetchPaginatedLoop (mockRespond n P) P "data.content" "data.totalPages" false
        page allItems trace fuel =
      (allItems ++ ((List.range n).drop (page * P)).map JVal.ofNat,
       trace ++ (List.range' page (max 1 ((n + P - 1) / P - page))).map Event.pageFetch) := by
  intro fuel
  induction fuel with
  | zero => intro page allItems trace hfuel; omega
  | succ f ih =>
      intro page allItems trace hfuel
      rw [fetchPaginatedLoop]
      rw [show paginationValueOf false page P = page from rfl]
      simp only [mock_status_eq, mock_content_eq, mock_totalPages_eq,
        bne_self_eq_false, Bool.false_eq_true, if_false]
      have hexp : (page + 1) * P = page * P + P := by ring
      have hlen : ((((List.range n).drop (page * P)).take P).map JVal.ofNat).length =
          min P (n - page * P) := by
        rw [List.length_map, List.length_take, List.length_drop, List.length_range]
      by_cases hshort : n < page * P + P
      · rw [if_pos (by rw [hlen]; omega)]
        have hlast : (n + P - 1) / P ≤ page + 1 :=
          (ceil_div_le_iff n P (page + 1) hP).mpr (by omega)
        have hmax : max 1 ((n + P - 1) / P - page) = 1 := by omega
        have htake : ((List.range n).drop (page * P)).take P =
            (List.range n).drop (page * P) :=
          List.take_of_length_le (by rw [List.length_drop, List.length_range]; omega)
        rw [htake, hmax, List.range'_one]
        rfl
      · rw [if_neg (by rw [hlen]; omega)]
        have htlb : page + 1 ≤ (n + P - 1) / P := by
          by_contra hcon
          have := (ceil_div_le_iff n P page hP).mp (by omega)
          omega
        by_cases hdone : (n + P - 1) / P ≤ page + 1
        · have hb : lastPageReached (some (((n + P - 1) / P : Nat) : Int)) page = true := by
            simp only [lastPageReached, decide_eq_true_eq]
            have : (n + P - 1) / P = page + 1 := by omega
            rw [this]
            push_cast
            omega
          rw [hb, if_pos rfl]
          have hneq : n = page * P + P := by
            have h1 : n ≤ (page + 1) * P := (ceil_div_le_iff n P (page + 1) hP).mp hdone
            omega
          have hmax : max 1 ((n + P - 1) / P - page) = 1 := by omega
          have htake : ((List.range n).drop (page * P)).take P =
              (List.range n).drop (page * P) :=
            List.take_of_length_le (by rw [List.length_drop, List.length_range]; omega)
          rw [htake, hmax, List.range'_one]
          rfl
        · have hb : lastPageReached (some (((n + P - 1) / P : Nat) : Int)) page = false := by
            show decide ((page : Int) ≥ (((n + P - 1) / P : Nat) : Int) - 1) = false
            rw [decide_eq_false_iff_not]
            generalize (n + P - 1) / P = t at hdone ⊢
            omega
          rw [hb, if_neg (by simp)]
          have hceil : (n + P - 1) / P ≤ 10001 :=
            (ceil_div_le_iff n P 10001 hP).mpr hn
          rw [if_neg (by omega)]
          rw [ih (page + 1) _ _ (by omega)]
          have hdd : ((List.range n).drop (page * P)).drop P =
              (List.range n).drop ((page + 1) * P) := by
            rw [List.drop_drop]
            congr 1
            ring
          have harr : (((List.range n).drop (page * P)).take P).map JVal.ofNat ++
              ((List.range n).drop ((page + 1) * P)).map JVal.ofNat =
              ((List.range n).drop (page * P)).map JVal.ofNat := by
            rw [← List.map_append, ← hdd, List.take_append_drop]
          have htr : max 1 ((n + P - 1) / P - page) =
              ((n + P - 1) / P - (page + 1)) + 1 := by omega
          have htr2 : max 1 ((n + P - 1) / P - (page + 1)) =
              (n + P - 1) / P - (page + 1) := by omega
          rw [List.append_assoc allItems, harr, List.append_assoc trace]
          rw [htr2, htr, List.range'_succ, List.map_cons, List.singleton_append]

lemma countFetches_append (a b : List Event) :
    countFetches (a ++ b) = countFetches a + countFetches b := by
  unfold countFetches
  rw [List.filter_append, List.length_append]

lemma countSleeps_append (a b : List Event) :
    countSleeps (a ++ b) = countSleeps a + countSleeps b := by
  unfold countSleeps
  rw [List.filter_append, List.length_append]

lemma countFetches_fetch (v : Nat) : countFetches [Event.pageFetch v] = 1 := rfl

lemma countSleeps_fetch (v : Nat) : countSleeps [Event.pageFetch v] = 0 := rfl

lemma countFetches_map_pageFetch (l : List Nat) :
    countFetches (l.map Event.pageFetch) = l.length := by
  induction l with
  | nil => rfl
  | cons x xs ih =>
      rw [List.map_cons, ← List.singleton_append, countFetches_append, ih,
        countFetches_fetch, List.length_cons]
      omega

lemma countSleeps_map_pageFetch (l : List Nat) :
    countSleeps (l.map Event.pageFetch) = 0 := by
  induction l with
  | nil => rfl
  | cons x xs ih =>
      rw [List.map_cons, ← List.singleton_append, countSleeps_append, ih,
        countSleeps_fetch]

/-- Every run of the pagination loop issues at most `fuel` further requests:
each iteration appends exactly one `pageFetch` before either stopping or
recursing with one unit of fuel less. -/
lemma countFetches_loop_le (respond : Nat → HttpResponse) (pageSize : Nat)
    (contentPath totalPagesPath : String) (useOffset : Bool) :
    ∀ fuel page allItems trace,
      countFetches (fetchPaginatedLoop respond pageSize contentPath totalPagesPath useOffset
        page allItems trace fuel).2 ≤ countFetches trace + fuel := by
  intro fuel
  induction fuel with
  | zero => intro page allItems trace; simp [fetchPaginatedLoop]
  | succ f ih =>
      intro page allItems trace
      rw [fetchPaginatedLoop]
      dsimp only
      have hstep : countFetches (trace ++
          [Event.pageFetch (paginationValueOf useOffset page pageSize)]) =
          countFetches trace + 1 := by
        rw [countFetches_append, countFetches_fetch]
      repeat' split
      all_goals
        first
          | exact le_trans (ih _ _ _) (by rw [hstep]; omega)
          | exact show countFetches (trace ++
              [Event.pageFetch (paginationValueOf useOffset page pageSize)]) ≤
              countFetches trace + (f + 1) from by rw [hstep]; omega

/-- The pagination loop never sleeps: there is no `time.sleep` call anywhere
in `_fetch_paginated` (lines 183-299). -/
lemma countSleeps_loop_eq (respond : Nat → HttpResponse) (pageSize : Nat)
    (contentPath totalPagesPath : String) (useOffset : Bool) :
    ∀ fuel page allItems trace,
      countSleeps (fetchPaginatedLoop respond pageSize contentPath totalPagesPath useOffset
        page allItems trace fuel).2 = countSleeps trace := by
  intro fuel
  induction fuel with
  | zero => intro page allItems trace; simp [fetchPaginatedLoop]
  | succ f ih =>
      intro page allItems trace
      rw [fetchPaginatedLoop]
      dsimp only
      have hsl : countSleeps (trace ++
          [Event.pageFetch (paginationValueOf useOffset page pageSize)]) =
          countSleeps trace := by
        rw [countSleeps_append, countSleeps_fetch]
        omega
      repeat' split
      all_goals
        first
          | exact (ih _ _ _).trans hsl
          | exact show countSleeps (trace ++
              [Event.pageFetch (paginationValueOf useOffset page pageSize)]) =
              countSleeps trace from hsl

lemma advers_status_eq (p : Nat) : (adversarialRespond p).statusCode = 200 := rfl

lemma advers_content_eq (p : Nat) :
    extractContent (adversarialRespond p).body "data.content" = [JVal.ofNat p] := rfl

lemma advers_totalPages_eq (p : Nat) :
    extractTotalPages (adversarialRespond p).body "data.totalPages" = none := rfl

lemma lastPageReached_none (page : Nat) : lastPageReached none page = false := rfl

/-- Against the adversarial endpoint the loop consumes all its fuel: it
fetches exactly the pages `page, page+1, ..., 10000` and stops only at the
hard ceiling. -/
lemma advers_loop_eq :
    ∀ fuel page allItems trace, page + fuel = 10001 →
      fetchPaginatedLoop adversarialRespond 1 "data.content" "data.totalPages" false
        page allItems trace fuel =
      (allItems ++ (List.range' page fuel).map JVal.ofNat,
       trace ++ (List.range' page fuel).map Event.pageFetch) := by
  intro fuel
  induction fuel with
  | zero => intro page allItems trace hpf; simp [fetchPaginatedLoop]
  | succ f ih =>
      intro page allItems trace hpf
      rw [fetchPaginatedLoop]
      rw [show paginationValueOf false page 1 = page from rfl]
      simp only [advers_status_eq, advers_content_eq, advers_totalPages_eq,
        lastPageReached_none, bne_self_eq_false, Bool.false_eq_true, if_false]
      rw [if_neg (by simp)]
      by_cases hend : page + 1 > 10000
      · rw [if_pos hend]
        have hf0 : f = 0 := by omega
        subst hf0
        rw [List.range'_one]
        rfl
      · rw [if_neg hend]
        rw [ih (page + 1) _ _ (by omega)]
        rw [List.append_assoc, List.append_assoc, List.range'_succ,
          List.map_cons, List.map_cons, List.singleton_append, List.singleton_append]

lemma drop_range' (p : Nat) : ∀ s n : Nat,
    (List.range' s n).drop p = List.range' (s + p) (n - p) := by
  induction p with
  | zero => intro s n; simp
  | succ q ih =>
      intro s n
      cases n with
      | zero => simp
      | succ m =>
          rw [List.range'_succ, List.drop_succ_cons, ih]
          congr 1 <;> omega

lemma take_one_drop_range (n p : Nat) (h : p < n) :
    ((List.range n).drop p).take 1 = [p] := by
  rw [List.range_eq_range', drop_range', Nat.zero_add]
  have hnp : n - p = (n - p - 1) + 1 := by omega
  rw [hnp, List.range'_succ]
  rfl

lemma mock_ceiling_content_eq (p : Nat) (hp : p < 10002) :
    extractContent (mockRespond 10002 1 p).body "data.content" = [JVal.ofNat p] := by
  rw [mock_content_eq, Nat.mul_one, take_one_drop_range _ _ hp]
  rfl

/-- The mock endpoint for 10002 items at page size 1 also drives the loop
into the hard ceiling: the advertised `totalPages` of 10002 is never
reached, so pages `page..10000` are fetched and item 10001 is lost. -/
lemma mock_ceiling_loop_eq :
    ∀ fuel page allItems trace, page + fuel = 10001 →
      fetchPaginatedLoop (mockRespond 10002 1) 1 "data.content" "data.totalPages" false
        page allItems trace fuel =
      (allItems ++ (List.range' page fuel).map JVal.ofNat,
       trace ++ (List.range' page fuel).map Event.pageFetch) := by
  intro fuel
  induction fuel with
  | zero => intro page allItems trace hpf; simp [fetchPaginatedLoop]
  | succ f ih =>
      intro page allItems trace hpf
      have hplt : page < 10002 := by omega
      rw [fetchPaginatedLoop]
      rw [show paginationValueOf false page 1 = page from rfl]
      simp only [mock_status_eq, mock_ceiling_content_eq page hplt, mock_totalPages_eq,
        bne_self_eq_false, Bool.false_eq_true, if_false]
      rw [if_neg (by simp)]
      have hlp : lastPageReached (some (((10002 + 1 - 1) / 1 : Nat) : Int)) page = false := by
        show decide ((page : Int) ≥ (((10002 + 1 - 1) / 1 : Nat) : Int) - 1) = false
        rw [decide_eq_false_iff_not]
        have h1 : ((10002 + 1 - 1) / 1 : Nat) = 10002 := by norm_num
        rw [h1]
        push_cast
        omega
      rw [hlp, if_neg (by simp)]
      by_cases hend : page + 1 > 10000
      · rw [if_pos hend]
        have hf0 : f = 0 := by omega
        subst hf0
        rw [List.range'_one]
        rfl
      · rw [if_neg hend]
        rw [ih (page + 1) _ _ (by omega)]
        rw [List.append_assoc, List.append_assoc, List.range'_succ,
          List.map_cons, List.map_cons, List.singleton_append, List.singleton_append]

/-- Running the loop when pages `0..k-1` succeed with full batches (and no
resolvable total-pages value) and page `k` returns a non-success status:
the loop stops at page `k` and keeps everything collected so far. -/
lemma failure_loop_eq (respond : Nat → HttpResponse) (pageSize : Nat)
    (contentPath totalPagesPath : String) (k : Nat) (hk : k ≤ 10000)
    (hfail : (respond k).statusCode ≠ 200)
    (hsucc : ∀ p, p < k → (respond p).statusCode = 200)
    (hfull : ∀ p, p < k → pageSize ≤ (extractContent (respond p).body contentPath).length)
    (htp : ∀ p, p < k → extractTotalPages (respond p).body totalPagesPath = none) :
    ∀ fuel page allItems trace, page ≤ k → k - page < fuel →
      fetchPaginatedLoop respond pageSize contentPath totalPagesPath false
        page allItems trace fuel =
      (allItems ++ ((List.range' page (k - page)).map
          (fun p => extractContent (respond p).body contentPath)).flatten,
       trace ++ (List.range' page (k - page + 1)).map Event.pageFetch) := by
  intro fuel
  induction fuel with
  | zero => intro page allItems trace hpk hpf; omega
  | succ f ih =>
      intro page allItems trace hpk hpf
      rw [fetchPaginatedLoop]
      rw [show paginationValueOf false page pageSize = page from rfl]
      by_cases hpage : page = k
      · subst hpage
        rw [if_pos (by simpa using hfail)]
        rw [Nat.sub_self]
        simp [List.range'_one]
      · have hplt : page < k := by omega
        rw [if_neg (by simp [hsucc page hplt])]
        rw [if_neg (by have := hfull page hplt; omega)]
        rw [htp page hplt, lastPageReached_none, if_neg (by simp)]
        rw [if_neg (by omega)]
        rw [ih (page + 1) _ _ (by omega) (by omega)]
        congr 1
        · rw [List.append_assoc]
          congr 1
          have h1 : k - page = (k - (page + 1)) + 1 := by omega
          rw [h1, List.range'_succ, List.map_cons, List.flatten_cons]
        · rw [List.append_assoc]
          congr 1
          have h2 : k - page + 1 = (k - (page + 1) + 1) + 1 := by omega
          conv_rhs => rw [h2, List.range'_succ, List.map_cons]
          rw [List.singleton_append]

/-!
## `HarnessAPIClient.is_gitx_resource` (harness_migration.py lines 2439-2466)

Pure storage-mode classifier: decides from a fetched resource dict whether
the resource lives in Git (GitX / Remote) or inline.
-/

/-- `is_gitx_resource(resource_data)`, on the resource dict's field list. -/
def is_gitx_resource (resourceData : List (String × JVal)) : Bool :=
  if (jLookup resourceData "storeType").getD .jnull == JVal.jstr "REMOTE" then true
  else if (jLookup resourceData "storeType").getD .jnull == JVal.jstr "INLINE" then false
  else if (jHasKey resourceData "gitDetails" &&
            pyTruthy ((jLookup resourceData "gitDetails").getD .jnull)) ||
          (jHasKey resourceData "entityGitDetails" &&
            pyTruthy ((jLookup resourceData "entityGitDetails").getD .jnull)) then true
  else if jHasKey resourceData "repo" || jHasKey resourceData "branch" then true
  else if jHasKey resourceData "yaml" &&
          pyTruthy ((jLookup resourceData "yaml").getD .jnull) then
    (if jHasKey resourceData "gitDetails" || jHasKey resourceData "entityGitDetails" then
      true
    else false)
  else false

/-- The spec's classification result. -/
inductive StorageMode where
  | Inline : StorageMode
  | Remote : StorageMode
deriving DecidableEq

/-- The storage-mode classifier as the spec words it (section 4.3, first
match wins): 1. `storeType` REMOTE/INLINE; 2. non-empty
`gitDetails`/`entityGitDetails`; 3. top-level `repo`/`branch` key;
4. non-empty `yaml` — Remote when `gitDetails`/`entityGitDetails` keys
exist (even empty), else Inline; 5. default Inline. -/
def specStorageClassify (resourceData : List (String × JVal)) : StorageMode :=
  if (jLookup resourceData "storeType").getD .jnull == JVal.jstr "REMOTE" then .Remote
  else if (jLookup resourceData "storeType").getD .jnull == JVal.jstr "INLINE" then .Inline
  else if (jHasKey resourceData "gitDetails" &&
            pyTruthy ((jLookup resourceData "gitDetails").getD .jnull)) ||
          (jHasKey resourceData "entityGitDetails" &&
            pyTruthy ((jLookup resourceData "entityGitDetails").getD .jnull)) then .Remote
  else if jHasKey resourceData "repo" || jHasKey resourceData "branch" then .Remote
  else if jHasKey resourceData "yaml" &&
          pyTruthy ((jLookup resourceData "yaml").getD .jnull) then
    (if jHasKey resourceData "gitDetails" || jHasKey resourceData "entityGitDetails" then
      .Remote
    else .Inline)
  else .Inline

/-!
## Scope enumeration (harness_migration.py lines 3095-3141)

`_get_all_scopes` and `_get_project_scopes`. Listing results come in as raw
item lists; a non-dict item makes Python raise (`Option`).
-/

/-- A scope as the migrator passes it around: `(org_identifier,
project_identifier)`, `none` being Python `None`. -/
abbrev Scope := Option JVal × Option JVal

/-- Lines 3124-3130 of `_get_all_scopes`: one `(org_id, None)` scope per
organization with a truthy identifier. -/
def collectOrgScopes : List JVal → Option (List Scope)
  | [] => some []
  | org :: rest =>
      (pyDictGetD org "organization" org).bind fun orgData =>
      (pyDictGetD orgData "identifier" (.jstr "")).bind fun orgId =>
      (collectOrgScopes rest).bind fun tail =>
      if pyTruthy orgId then some ((some orgId, none) :: tail) else some tail

/-- Lines 3132-3139 of `_get_all_scopes`: one `(org_id, project_id)` scope
per project in the flat global project list with truthy org and project
identifiers. -/
def collectProjectScopes : List JVal → Option (List Scope)
  | [] => some []
  | project :: rest =>
      (pyDictGetD project "project" project).bind fun projectData =>
      (pyDictGetD projectData "orgIdentifier" (.jstr "")).bind fun orgId =>
      (pyDictGetD projectData "identifier" (.jstr "")).bind fun projectId =>
      (collectProjectScopes rest).bind fun tail =>
      if pyTruthy orgId && pyTruthy projectId then
        some ((some orgId, some projectId) :: tail)
      else some tail

/-- `_get_all_scopes` (lines 3117-3141): account scope first, then org
scopes, then project scopes. -/
def getAllScopes (orgs : List JVal) (projects : List JVal) : Option (List Scope) :=
  (collectOrgScopes orgs).bind fun orgScopes =>
  (collectProjectScopes projects).bind fun projScopes =>
  some ((none, none) :: (orgScopes ++ projScopes))

/-- Inner loop of `_get_project_scopes` (lines 3108-3113): projects of one
organization. -/
def collectOrgProjects (orgId : JVal) : List JVal → Option (List (JVal × JVal))
  | [] => some []
  | project :: rest =>
      (pyDictGetD project "project" project).bind fun projectItem =>
      (pyDictGetD projectItem "identifier" (.jstr "")).bind fun projectId =>
      (collectOrgProjects orgId rest).bind fun tail =>
      if pyTruthy projectId then some ((orgId, projectId) :: tail) else some tail

/-- `_get_project_scopes` (lines 3095-3115): walk organizations, skip those
without a truthy identifier, and list each one's projects. -/
def getProjectScopes (projectsOf : JVal → List JVal) :
    List JVal → Option (List (JVal × JVal))
  | [] => some []
  | org :: rest =>
      (pyDictGetD org "organization" org).bind fun orgItem =>
      (pyDictGetD orgItem "identifier" (.jstr "")).bind fun orgId =>
      if pyTruthy orgId then
        (collectOrgProjects orgId (projectsOf orgId)).bind fun projScopes =>
        (getProjectScopes projectsOf rest).bind fun tail =>
        some (projScopes ++ tail)
      else getProjectScopes projectsOf rest

lemma collectOrgScopes_shape : ∀ (orgs : List JVal) (res : List Scope),
    collectOrgScopes orgs = some res → ∀ s ∈ res, s.2 = none := by
  intro orgs
  induction orgs with
  | nil =>
      intro res h s hs
      rw [collectOrgScopes] at h
      cases h
      simp at hs
  | cons org rest ih =>
      intro res h s hs
      rw [collectOrgScopes] at h
      rcases Option.bind_eq_some.mp h with ⟨orgData, hA, h⟩
      rcases Option.bind_eq_some.mp h with ⟨orgId, hB, h⟩
      rcases Option.bind_eq_some.mp h with ⟨tail, hC, h⟩
      by_cases hT : pyTruthy orgId = true
      · rw [if_pos hT] at h
        cases h
        rcases List.mem_cons.mp hs with hh | ht
        · subst hh; rfl
        · exact ih _ hC s ht
      · rw [if_neg hT] at h
        cases h
        exact ih _ hC s hs

lemma collectProjectScopes_shape : ∀ (projects : List JVal) (res : List Scope),
    collectProjectScopes projects = some res → ∀ s ∈ res, s.1.isSome := by
  intro projects
  induction projects with
  | nil =>
      intro res h s hs
      rw [collectProjectScopes] at h
      cases h
      simp at hs
  | cons project rest ih =>
      intro res h s hs
      rw [collectProjectScopes] at h
      rcases Option.bind_eq_some.mp h with ⟨projectData, hA, h⟩
      rcases Option.bind_eq_some.mp h with ⟨orgId, hB, h⟩
      rcases Option.bind_eq_some.mp h with ⟨projectId, hC, h⟩
      rcases Option.bind_eq_some.mp h with ⟨tail, hD, h⟩
      by_cases hT : (pyTruthy orgId && pyTruthy projectId) = true
      · rw [if_pos hT] at h
        cases h
        rcases List.mem_cons.mp hs with hh | ht
        · subst hh; rfl
        · exact ih _ hD s ht
      · rw [if_neg hT] at h
        cases h
        exact ih _ hD s hs

lemma collectOrgProjects_shape (orgId : JVal) :
    ∀ (projects : List JVal) (res : List (JVal × JVal)),
    collectOrgProjects orgId projects = some res →
    ∀ sp ∈ res, sp.1 = orgId ∧ pyTruthy sp.2 = true := by
  intro projects
  induction projects with
  | nil =>
      intro res h sp hs
      rw [collectOrgProjects] at h
      cases h
      simp at hs
  | cons project rest ih =>
      intro res h sp hs
      rw [collectOrgProjects] at h
      rcases Option.bind_eq_some.mp h with ⟨projectItem, hA, h⟩
      rcases Option.bind_eq_some.mp h with ⟨projectId, hB, h⟩
      rcases Option.bind_eq_some.mp h with ⟨tail, hC, h⟩
      by_cases hT : pyTruthy projectId = true
      · rw [if_pos hT] at h
        cases h
        rcases List.mem_cons.mp hs with hh | ht
        · subst hh; exact ⟨rfl, hT⟩
        · exact ih _ hC sp ht
      · rw [if_neg hT] at h
        cases h
        exact ih _ hC sp hs

lemma getProjectScopes_truthy (projectsOf : JVal → List JVal) :
    ∀ (orgs : List JVal) (res : List (JVal × JVal)),
    getProjectScopes projectsOf orgs = some res →
    ∀ sp ∈ res, pyTruthy sp.1 = true ∧ pyTruthy sp.2 = true := by
  intro orgs
  induction orgs with
  | nil =>
      intro res h sp hs
      rw [getProjectScopes] at h
      cases h
      simp at hs
  | cons org rest ih =>
      intro res h sp hs
      rw [getProjectScopes] at h
      rcases Option.bind_eq_some.mp h with ⟨orgItem, hA, h⟩
      rcases Option.bind_eq_some.mp h with ⟨orgId, hB, h⟩
      by_cases hT : pyTruthy orgId = true
      · rw [if_pos hT] at h
        rcases Option.bind_eq_some.mp h with ⟨projScopes, hC, h⟩
        rcases Option.bind_eq_some.mp h with ⟨tail, hD, h⟩
        cases h
        rcases List.mem_append.mp hs with hh | ht
        · have hshape := collectOrgProjects_shape orgId (projectsOf orgId) projScopes hC sp hh
          exact ⟨hshape.1 ▸ hT, hshape.2⟩
        · exact ih _ hD sp ht
      · rw [if_neg hT] at h
        exact ih res h sp hs

/-!
## Migration phase loops (HarnessMigrator)

`MigrationResult` is the per-phase counter triple. Destination clients are
modelled as response functions from the POSTed request body to
`(status_code, response_text)`; `none` for `dest` models a missing
destination client. Per-item effects are recorded as events.
-/

/-- Per-phase counters (never decremented). -/
structure MigrationResult where
  success : Nat
  failed : Nat
  skipped : Nat
deriving DecidableEq

/-- Pointwise accumulation of counters. -/
def addMR (a b : MigrationResult) : MigrationResult :=
  ⟨a.success + b.success, a.failed + b.failed, a.skipped + b.skipped⟩

/-- `clean_for_creation`'s read-only field set (lines 33-36). -/
def readOnlyFields : List String :=
  ["createdAt", "lastModifiedAt", "lastModifiedBy", "createdBy",
   "version", "harnessManaged", "deleted", "accountId"]

/-- `clean_for_creation(data)` (lines 31-38), on a dict's field list. -/
def clean_for_creation (fields : List (String × JVal)) : List (String × JVal) :=
  fields.filter fun p => !(readOnlyFields.contains p.1)

mutual

/-- `remove_none_values(data)` (lines 21-28). -/
def removeNoneValues : JVal → JVal
  | .jobj fields => .jobj (removeNoneFields fields)
  | .jarr items => .jarr (removeNoneItems items)
  | .jnull => .jnull
  | .jnum n => .jnum n
  | .jstr s => .jstr s

/-- Dict branch of `remove_none_values`. -/
def removeNoneFields : List (String × JVal) → List (String × JVal)
  | [] => []
  | (k, v) :: rest =>
      if v = .jnull then removeNoneFields rest
      else (k, removeNoneValues v) :: removeNoneFields rest

/-- List branch of `remove_none_values`. -/
def removeNoneItems : List JVal → List JVal
  | [] => []
  | v :: rest =>
      if v = .jnull then removeNoneItems rest
      else removeNoneValues v :: removeNoneItems rest

end

/-- `_is_default_organization` (lines 3254-3256). -/
def is_default_organization (identifier : JVal) : Bool :=
  identifier == JVal.jstr "default"

/-- `_is_default_project` (lines 3258-3260). -/
def is_default_project (identifier : JVal) : Bool :=
  identifier == JVal.jstr "default_project"

/-- `HarnessAPIClient.create_organization` (lines 312-345): cleans the data,
wraps it as `{"organization": ...}`, POSTs unless in dry-run, and returns
`True` only on 200/201 — an already-exists failure logs a skip message but
still returns `False`. -/
def create_organization (respond : JVal → Nat × String) (orgData : JVal)
    (dryRun : Bool) : Option (Bool × List Event) :=
  match orgData with
  | .jobj fields =>
      let cleaned := clean_for_creation fields
      let requestBody := JVal.jobj [("organization", .jobj cleaned)]
      if dryRun then some (true, [])
      else
        let st := respond requestBody
        let events := [Event.writeCall "organization" requestBody]
        if st.1 == 200 || st.1 == 201 then some (true, events)
        else if is_resource_already_exists_error st.1 st.2 then
          some (false, events ++ [Event.logAlreadyExists "organization"
            ((jLookup cleaned "identifier").getD (.jstr "unknown"))])
        else some (false, events)
  | _ => none

/-- Python dict item assignment `d[key] = v`. -/
def setKey (fields : List (String × JVal)) (key : String) (v : JVal) :
    List (String × JVal) :=
  if jHasKey fields key then
    fields.map fun p => if p.1 == key then (key, v) else p
  else fields ++ [(key, v)]

/-- `HarnessAPIClient.create_project` (lines 379-419): injects
`orgIdentifier` when absent, cleans, wraps as `{"project": ...}`, POSTs
unless in dry-run; `False` on any non-200/201 status, including
already-exists. -/
def create_project (respond : JVal → Nat × String) (projectData : JVal)
    (orgIdentifier : JVal) (dryRun : Bool) : Option (Bool × List Event) :=
  match projectData with
  | .jobj fields =>
      let fields2 := if pyTruthy orgIdentifier && !(jHasKey fields "orgIdentifier") then
          fields ++ [("orgIdentifier", orgIdentifier)]
        else fields
      let cleaned := clean_for_creation fields2
      let requestBody := JVal.jobj [("project", .jobj cleaned)]
      if dryRun then some (true, [])
      else
        let st := respond requestBody
        let events := [Event.writeCall "project" requestBody]
        if st.1 == 200 || st.1 == 201 then some (true, events)
        else if is_resource_already_exists_error st.1 st.2 then
          some (false, events ++ [Event.logAlreadyExists "project"
            ((jLookup cleaned "identifier").getD (.jstr "unknown"))])
        else some (false, events)
  | _ => none

/-- One iteration of the `migrate_organizations` loop (lines 3150-3190):
default organizations are skipped before any export or destination call
(`continue` also skips the rate-limit sleep); otherwise the data is
exported, created at the destination, and the fixed delay runs. -/
def migrateOrgItem (dest : Option (JVal → Nat × String)) (dryRun : Bool)
    (org : JVal) : Option (MigrationResult × List Event) :=
  (pyDictGetD org "organization" (.jstr "")).bind fun orgData =>
  (pyDictGetD orgData "identifier" (.jstr "")).bind fun identifier =>
  if is_default_organization identifier then some (⟨0, 0, 1⟩, [])
  else if !pyTruthy orgData then some (⟨0, 1, 0⟩, [])
  else
    let exportEv := [Event.exportFile "organization" identifier]
    if dryRun && dest.isNone then
      some (⟨1, 0, 0⟩, exportEv ++ [Event.sleep])
    else
      match dest with
      | some respond =>
          (create_organization respond orgData dryRun).bind fun oe =>
          if oe.1 then some (⟨1, 0, 0⟩, exportEv ++ oe.2 ++ [Event.sleep])
          else some (⟨0, 1, 0⟩, exportEv ++ oe.2 ++ [Event.sleep])
      | none => some (⟨0, 1, 0⟩, exportEv ++ [Event.sleep])

/-- `migrate_organizations` (lines 3143-3192) over the listed organization
items. -/
def migrateOrganizations (dest : Option (JVal → Nat × String)) (dryRun : Bool) :
    List JVal → Option (MigrationResult × List Event)
  | [] => some (⟨0, 0, 0⟩, [])
  | org :: rest =>
      (migrateOrgItem dest dryRun org).bind fun de =>
      (migrateOrganizations dest dryRun rest).bind fun rt =>
      some (addMR de.1 rt.1, de.2 ++ rt.2)

/-- One iteration of the `migrate_projects` loop (lines 3204-3250): default
projects are skipped before any export or destination call; otherwise null
values are removed, the data exported and created at the destination. -/
def migrateProjItem (dest : Option (JVal → Nat × String)) (dryRun : Bool)
    (project : JVal) : Option (MigrationResult × List Event) :=
  (pyDictGetD project "project" project).bind fun projectData =>
  (pyDictGetD projectData "identifier" (.jstr "")).bind fun identifier =>
  (pyDictGetD projectData "orgIdentifier" (.jstr "")).bind fun orgId =>
  if is_default_project identifier then some (⟨0, 0, 1⟩, [])
  else if !pyTruthy projectData then some (⟨0, 1, 0⟩, [])
  else
    let cleanedData := removeNoneValues projectData
    let exportEv := [Event.exportFile "project" identifier]
    if dryRun && dest.isNone then
      some (⟨1, 0, 0⟩, exportEv ++ [Event.sleep])
    else
      match dest with
      | some respond =>
          (create_project respond cleanedData orgId dryRun).bind fun oe =>
          if oe.1 then some (⟨1, 0, 0⟩, exportEv ++ oe.2 ++ [Event.sleep])
          else some (⟨0, 1, 0⟩, exportEv ++ oe.2 ++ [Event.sleep])
      | none => some (⟨0, 1, 0⟩, exportEv ++ [Event.sleep])

/-- `migrate_projects` (lines 3194-3252) over the flat global project
list. -/
def migrateProjects (dest : Option (JVal → Nat × String)) (dryRun : Bool) :
    List JVal → Option (MigrationResult × List Event)
  | [] => some (⟨0, 0, 0⟩, [])
  | project :: rest =>
      (migrateProjItem dest dryRun project).bind fun de =>
      (migrateProjects dest dryRun rest).bind fun rt =>
      some (addMR de.1 rt.1, de.2 ++ rt.2)

/-!
## `migrate_pipelines` (harness_migration.py lines 5102-5213)
-/

/-- `HarnessAPIClient.create_pipeline` (lines 468-505): builds the JSON
payload with the YAML content and identifiers (plus truthy tags), POSTs,
and returns `True` only on 200/201; a classified already-exists response
logs the skip message but still returns `False`. -/
def create_pipeline (respond : JVal → Nat × String) (accountId : String)
    (yamlContent identifier name orgIdentifier projectIdentifier tags : JVal) :
    Bool × List Event :=
  let dataFields := [("pipeline_yaml", yamlContent),
    ("accountId", JVal.jstr accountId), ("identifier", identifier),
    ("name", name), ("orgIdentifier", orgIdentifier),
    ("projectIdentifier", projectIdentifier)]
  let dataFields := if pyTruthy tags then dataFields ++ [("tags", tags)]
    else dataFields
  let requestBody := JVal.jobj dataFields
  let st := respond requestBody
  let events := [Event.writeCall "pipeline" requestBody]
  if st.1 == 200 || st.1 == 201 then (true, events)
  else if is_resource_already_exists_error st.1 st.2 then
    (false, events ++ [Event.logAlreadyExists "pipeline" identifier])
  else (false, events)

/-- `HarnessAPIClient.import_pipeline_yaml` (lines 507-546): POSTs the git
reference with a `pipelineDescription` body; `True` only on 200/201. -/
def import_pipeline_yaml (respond : JVal → Nat × String)
    (_gitDetails pipelineIdentifier pipelineDescription : JVal) :
    Bool × List Event :=
  let requestBody := JVal.jobj [("pipelineDescription",
    if pyTruthy pipelineDescription then pipelineDescription else .jstr "")]
  let st := respond requestBody
  let events := [Event.writeCall "pipeline_import" requestBody]
  if st.1 == 200 || st.1 == 201 then (true, events)
  else if is_resource_already_exists_error st.1 st.2 then
    (false, events ++ [Event.logAlreadyExists "pipeline" pipelineIdentifier])
  else (false, events)

/-- Tag extraction of lines 5193-5201: `yaml.safe_load` (an external
parser, passed in as a function; `none` models a parse error) inside
`try/except`, then `parsed.get('pipeline', {}).get('tags') or
parsed.get('tags')`; any exception is caught and leaves the tags `None`. -/
def extractTags (parseYaml : JVal → Option JVal) (yamlContent : JVal) : JVal :=
  match parseYaml yamlContent with
  | none => .jnull
  | some parsed =>
      match parsed with
      | .jobj fields =>
          if pyTruthy parsed then
            match (jLookup fields "pipeline").getD (.jobj []) with
            | .jobj innerFields =>
                let t1 := (jLookup innerFields "tags").getD .jnull
                if pyTruthy t1 then t1 else (jLookup fields "tags").getD .jnull
            | _ => .jnull
          else .jnull
      | _ => .jnull

/-- The collaborators `migrate_pipelines` calls, as explicit functions. -/
structure PipelineEnv where
  projectsOf : JVal → List JVal
  listPipelines : JVal → JVal → List JVal
  pipelineDataOf : JVal → JVal → JVal → JVal
  createRespond : JVal → Nat × String
  importRespond : JVal → Nat × String
  parseYaml : JVal → Option JVal
  accountId : String
  dryRun : Bool

/-- One iteration of the `migrate_pipelines` inner loop (lines 5115-5211):
fetch the full data, classify GitX vs Inline, export, then import (GitX) or
create (Inline) at the destination; failures of any step count the single
item as `failed` and processing continues. -/
def migratePipelineItem (env : PipelineEnv) (orgId projectId pipeline : JVal) :
    Option (MigrationResult × List Event) :=
  (pyDictGetD pipeline "pipeline" pipeline).bind fun pipelineItem =>
  (pyDictGetD pipelineItem "identifier" (.jstr "")).bind fun identifier =>
  (pyDictGetD pipelineItem "name" identifier).bind fun name =>
  let pipelineData := env.pipelineDataOf identifier orgId projectId
  if !pyTruthy pipelineData then some (⟨0, 1, 0⟩, [])
  else
    match pipelineData with
    | .jobj pdFields =>
        if is_gitx_resource pdFields then
          let gitDetails := (jLookup pdFields "gitDetails").getD (.jobj [])
          if !pyTruthy gitDetails then some (⟨0, 1, 0⟩, [])
          else
            let connectorRef := (jLookup pdFields "connectorRef").getD .jnull
            (if pyTruthy connectorRef then
                match gitDetails with
                | .jobj gdf => some (JVal.jobj (setKey gdf "connectorRef" connectorRef))
                | _ => none
              else some gitDetails).bind fun gitDetails2 =>
            let yamlContent := (jLookup pdFields "yamlPipeline").getD (.jstr "")
            let exportEv := if pyTruthy yamlContent then
                [Event.exportFile "pipeline" identifier] else []
            if env.dryRun then some (⟨1, 0, 0⟩, exportEv ++ [Event.sleep])
            else
              let descA := (jLookup pdFields "description").getD .jnull
              let desc := if pyTruthy descA then descA
                else (jLookup pdFields "pipelineDescription").getD .jnull
              let oe := import_pipeline_yaml env.importRespond gitDetails2 identifier desc
              if oe.1 then some (⟨1, 0, 0⟩, exportEv ++ oe.2 ++ [Event.sleep])
              else some (⟨0, 1, 0⟩, exportEv ++ oe.2 ++ [Event.sleep])
        else
          let yamlContent := (jLookup pdFields "yamlPipeline").getD (.jstr "")
          if !pyTruthy yamlContent then some (⟨0, 1, 0⟩, [])
          else
            let exportEv := [Event.exportFile "pipeline" identifier]
            if env.dryRun then some (⟨1, 0, 0⟩, exportEv ++ [Event.sleep])
            else
              let tags := extractTags env.parseYaml yamlContent
              let oe := create_pipeline env.createRespond env.accountId
                yamlContent identifier name orgId projectId tags
              if oe.1 then some (⟨1, 0, 0⟩, exportEv ++ oe.2 ++ [Event.sleep])
              else some (⟨0, 1, 0⟩, exportEv ++ oe.2 ++ [Event.sleep])
    | _ => none

/-- The pipelines of one project scope. -/
def migratePipelinesAtScope (env : PipelineEnv) (orgId projectId : JVal) :
    List JVal → Option (MigrationResult × List Event)
  | [] => some (⟨0, 0, 0⟩, [])
  | p :: rest =>
      (migratePipelineItem env orgId projectId p).bind fun de =>
      (migratePipelinesAtScope env orgId projectId rest).bind fun rt =>
      some (addMR de.1 rt.1, de.2 ++ rt.2)

/-- The scope loop of `migrate_pipelines` (lines 5108-5212). -/
def migratePipelinesScopes (env : PipelineEnv) :
    List (JVal × JVal) → Option (MigrationResult × List Event)
  | [] => some (⟨0, 0, 0⟩, [])
  | sc :: rest =>
      (migratePipelinesAtScope env sc.1 sc.2
        (env.listPipelines sc.1 sc.2)).bind fun de =>
      (migratePipelinesScopes env rest).bind fun rt =>
      some (addMR de.1 rt.1, de.2 ++ rt.2)

/-- `migrate_pipelines` (lines 5102-5213): enumerate the project scopes and
process each scope's pipelines. -/
def migratePipelines (env : PipelineEnv) (orgs : List JVal) :
    Option (MigrationResult × List Event) :=
  (getProjectScopes env.projectsOf orgs).bind fun scopes =>
  migratePipelinesScopes env scopes

/-!
## `migrate_all` (harness_migration.py lines 5658-5772)

Only the phase sequencing matters here: which phase methods run, under
which `all_results` keys, in which order, for a given `resource_types`
selection.
-/

/-- Default `resource_types` of line 5661 (used when `None` is passed). -/
def defaultResourceTypes : List String :=
  ["organizations", "projects", "connectors", "secrets", "environments",
   "infrastructures", "services", "overrides", "templates", "pipelines",
   "input-sets", "triggers"]

/-- One `if <type> in resource_types` guard of `migrate_all`: the phase
runs (under `key`) exactly when its resource type is selected. -/
def phaseIf (rts : List String) (ty key : String) : List String :=
  if rts.contains ty then [key] else []

/-- The phase keys `migrate_all` executes, in source order, for a given
selection (lines 5658-5772): each `if <type> in resource_types` guard
appends its phase key. -/
def migrateAllPhases (resourceTypes : Option (List String)) : List String :=
  let rts := resourceTypes.getD defaultResourceTypes
  List.flatten
    [phaseIf rts "organizations" "organizations",
     phaseIf rts "projects" "projects",
     phaseIf rts "templates" "secret_manager_templates",
     phaseIf rts "connectors" "custom_secret_manager_connectors",
     phaseIf rts "secrets" "harness_secret_manager_secrets",
     phaseIf rts "connectors" "secret_manager_connectors",
     phaseIf rts "secrets" "secrets",
     phaseIf rts "connectors" "connectors",
     phaseIf rts "templates" "deployment_artifact_templates",
     phaseIf rts "environments" "environments",
     phaseIf rts "infrastructures" "infrastructures",
     phaseIf rts "services" "services",
     phaseIf rts "overrides" "overrides",
     phaseIf rts "monitored-services" "monitored_services",
     phaseIf rts "user-journeys" "user_journeys",
     phaseIf rts "templates" "templates",
     phaseIf rts "pipelines" "pipelines",
     phaseIf rts "input-sets" "input_sets",
     phaseIf rts "triggers" "triggers",
     phaseIf rts "webhooks" "webhooks",
     phaseIf rts "policies" "policies",
     phaseIf rts "policy-sets" "policy_sets",
     phaseIf rts "roles" "roles",
     phaseIf rts "resource-groups" "resource_groups",
     phaseIf rts "settings" "settings",
     phaseIf rts "ip-allowlists" "ip_allowlists",
     phaseIf rts "users" "users",
     phaseIf rts "service-accounts" "service_accounts"]

/-- The full CLI selection (argparse choices / defaults, lines 5781-5783). -/
def allResourceTypes : List String :=
  ["organizations", "projects", "connectors", "secrets", "environments",
   "infrastructures", "services", "overrides", "monitored-services",
   "user-journeys", "pipelines", "templates", "input-sets", "triggers",
   "webhooks", "policies", "policy-sets", "roles", "resource-groups",
   "settings", "ip-allowlists", "users", "service-accounts"]

/-- The fixed dependency order the spec states (section 4.5), as
`all_results` phase keys. -/
def specPhaseOrder : List String :=
  ["organizations", "projects", "secret_manager_templates",
   "custom_secret_manager_connectors", "harness_secret_manager_secrets",
   "secret_manager_connectors", "secrets", "connectors",
   "deployment_artifact_templates", "environments", "infrastructures",
   "services", "overrides", "monitored_services", "user_journeys",
   "templates", "pipelines", "input_sets", "triggers", "webhooks",
   "policies", "policy_sets", "roles", "resource_groups", "settings",
   "ip_allowlists", "users", "service_accounts"]

/-- The predecessor relation of the dependency graph, from the source's
ordering comments in `migrate_all` (pairs `(phase, predecessor)`). -/
def phasePredecessors : List (String × String) :=
  [("projects", "organizations"),
   ("secret_manager_templates", "organizations"),
   ("secret_manager_templates", "projects"),
   ("custom_secret_manager_connectors", "secret_manager_templates"),
   ("harness_secret_manager_secrets", "projects"),
   ("secret_manager_connectors", "harness_secret_manager_secrets"),
   ("secrets", "secret_manager_connectors"),
   ("connectors", "secrets"),
   ("connectors", "custom_secret_manager_connectors"),
   ("environments", "deployment_artifact_templates"),
   ("services", "deployment_artifact_templates"),
   ("infrastructures", "environments"),
   ("overrides", "environments"),
   ("overrides", "infrastructures"),
   ("overrides", "services"),
   ("monitored_services", "services"),
   ("monitored_services", "environments"),
   ("pipelines", "templates"),
   ("input_sets", "pipelines"),
   ("triggers", "input_sets"),
   ("webhooks", "triggers"),
   ("policy_sets", "policies"),
   ("roles", "organizations"),
   ("roles", "projects"),
   ("resource_groups", "organizations"),
   ("resource_groups", "projects"),
   ("users", "roles"),
   ("users", "resource_groups"),
   ("service_accounts", "roles"),
   ("service_accounts", "resource_groups")]

/-!
## Claim theorems
-/

/-- `Event.writeCall` recogniser. -/
def isWriteCall : Event → Bool
  | .writeCall _ _ => true
  | _ => false

/-- Number of destination write calls in a trace. -/
def countWrites (tr : List Event) : Nat :=
  (tr.filter isWriteCall).length

/-- `Event.logAlreadyExists` recogniser. -/
def isLogAlreadyExists : Event → Bool
  | .logAlreadyExists _ _ => true
  | _ => false

/-- Source-tenant listing for the C1 scenario: one organization `o1` with
one project `p1` holding one inline pipeline `pipe1` whose creation at the
destination answers 409 "already exists". -/
def orgsC1 : List JVal :=
  [.jobj [("organization", .jobj [("identifier", .jstr "o1")])]]

/-- Destination/collaborator functions for the C1 scenario. -/
def envC1 : PipelineEnv :=
  { projectsOf := fun _ => [.jobj [("project", .jobj [("identifier", .jstr "p1")])]],
    listPipelines := fun _ _ => [.jobj [("pipeline", .jobj
      [("identifier", .jstr "pipe1"), ("name", .jstr "Pipe One")])]],
    pipelineDataOf := fun _ _ _ => .jobj [("yamlPipeline", .jstr "pipeline yaml")],
    createRespond := fun _ => (409,
      "Pipeline with identifier pipe1 already exists or has been deleted"),
    importRespond := fun _ => (500, "unused"),
    parseYaml := fun _ => none,
    accountId := "acct",
    dryRun := false }

/-- C1: the claim says an inline pipeline creation whose POST response is
classified as already-exists is recorded under `skipped`. The code
disagrees: `create_pipeline` logs the skip message but returns `False`,
and `migrate_pipelines` counts every `False` as `failed`. At the concrete
already-exists input the classifier fires, the skip message is logged, the
item is not retried (one write call), yet the phase result is
`{success 0, failed 1, skipped 0}`. -/
theorem C1_already_exists_recorded_failed :
    is_resource_already_exists_error 409
      "Pipeline with identifier pipe1 already exists or has been deleted" = true ∧
    (migratePipelines envC1 orgsC1).map Prod.fst =
      some ⟨0, 1, 0⟩ ∧
    (migratePipelines envC1 orgsC1).map (fun r => countWrites r.2) = some 1 ∧
    (migratePipelines envC1 orgsC1).map (fun r => r.2.filter isLogAlreadyExists) =
      some [Event.logAlreadyExists "pipeline" (.jstr "pipe1")] :=
  ⟨by decide, by decide, by decide, by decide⟩

/-- C2: the idempotency classifier returns `false` for every status outside
{400, 409, 500} regardless of body, and behaves as stated on the four
concrete inputs. -/
theorem C2_idempotency_classifier :
    (∀ (statusCode : Nat) (responseText : String),
      statusCode ≠ 400 → statusCode ≠ 409 → statusCode ≠ 500 →
      is_resource_already_exists_error statusCode responseText = false) ∧
    is_resource_already_exists_error 409
      "Organization with identifier \x27x\x27 already exists" = true ∧
    is_resource_already_exists_error 500 "E11000 duplicate key error" = true ∧
    is_resource_already_exists_error 400 "field \x27name\x27 is required" = false ∧
    is_resource_already_exists_error 200 "ok" = false := by
  refine ⟨?_, by decide, by decide, by decide, by decide⟩
  intro statusCode responseText h1 h2 h3
  unfold is_resource_already_exists_error
  have hc : (statusCode == 400 || statusCode == 409 || statusCode == 500) = false := by
    simp only [Bool.or_eq_false_iff, beq_eq_false_iff_ne, ne_eq]
    exact ⟨⟨h1, h2⟩, h3⟩
  rw [if_pos (by rw [hc]; rfl)]

/-- C4: `is_gitx_resource` is pure and agrees with the spec's first-match
decision order (`specStorageClassify`); it classifies the five concrete
examples as stated; and any input with a non-empty `yaml`, no `storeType`,
no `repo`/`branch` key, and a `gitDetails` or `entityGitDetails` key (even
with an empty value) is Remote. -/
theorem C4_storage_mode_classifier :
    (∀ d : List (String × JVal),
      (is_gitx_resource d = true ↔ specStorageClassify d = .Remote)) ∧
    is_gitx_resource [("storeType", .jstr "REMOTE")] = true ∧
    is_gitx_resource [("storeType", .jstr "INLINE"), ("yaml", .jstr "a: b")] = false ∧
    is_gitx_resource [("gitDetails", .jobj [("repoName", .jstr "r")])] = true ∧
    is_gitx_resource [("yaml", .jstr "a: b")] = false ∧
    is_gitx_resource [] = false ∧
    (∀ d : List (String × JVal),
      jHasKey d "storeType" = false → jHasKey d "repo" = false →
      jHasKey d "branch" = false →
      pyTruthy ((jLookup d "yaml").getD .jnull) = true →
      (jHasKey d "gitDetails" = true ∨ jHasKey d "entityGitDetails" = true) →
      is_gitx_resource d = true) := by
  refine ⟨?_, by decide, by decide, by decide, by decide, by decide, ?_⟩
  · intro d
    unfold is_gitx_resource specStorageClassify
    split_ifs <;> simp
  · intro d hst hrepo hbranch hyaml hgit
    have h1 : jLookup d "storeType" = none := by
      unfold jHasKey at hst
      cases hl : jLookup d "storeType" with
      | none => rfl
      | some v => rw [hl] at hst; simp at hst
    have hyk : jHasKey d "yaml" = true := by
      unfold jHasKey
      cases hl : jLookup d "yaml" with
      | none => rw [hl] at hyaml; simp [pyTruthy] at hyaml
      | some v => rfl
    unfold is_gitx_resource
    rw [h1]
    rw [if_neg (by decide), if_neg (by decide)]
    by_cases hg : ((jHasKey d "gitDetails" &&
        pyTruthy ((jLookup d "gitDetails").getD .jnull)) ||
        (jHasKey d "entityGitDetails" &&
        pyTruthy ((jLookup d "entityGitDetails").getD .jnull))) = true
    · rw [if_pos hg]
    · rw [if_neg hg]
      rw [if_neg (by rw [hrepo, hbranch]; decide)]
      rw [if_pos (by rw [hyk, hyaml]; rfl)]
      rw [if_pos (by rcases hgit with h | h <;> rw [h] <;> simp)]

/-- C5: with every resource type selected, `migrate_all` executes exactly
the fixed dependency-ordered phase list, and every predecessor of every
phase runs strictly earlier. -/
theorem C5_migrate_all_phase_order :
    migrateAllPhases (some allResourceTypes) = specPhaseOrder ∧
    ∀ pp ∈ phasePredecessors,
      List.indexOf pp.2 (migrateAllPhases (some allResourceTypes)) <
        List.indexOf pp.1 (migrateAllPhases (some allResourceTypes)) :=
  ⟨by decide, by decide⟩

/-- C3 (counterexample): at N = 10002, P = 1 the mock endpoint needs
`ceil(N/P)` = 10002 requests, but the engine's hard ceiling cuts the run at
10001 fetched pages, so only 10001 items come back — the claim's
universally quantified statement fails. -/
theorem C3_counterexample_ceiling :
    (fetchPaginated (mockRespond 10002 1) 1).1.length = 10001 ∧
    (fetchPaginated (mockRespond 10002 1) 1).1 ≠ (List.range 10002).map JVal.ofNat ∧
    countFetches (fetchPaginated (mockRespond 10002 1) 1).2 = 10001 := by
  have h := mock_ceiling_loop_eq 10001 0 [] [] (by omega)
  unfold fetchPaginated
  rw [h]
  dsimp only
  simp only [List.nil_append]
  refine ⟨?_, ?_, ?_⟩
  · rw [List.length_map, List.length_range']
  · intro hcon
    have h1 : ((List.range' 0 10001).map JVal.ofNat).length =
        ((List.range 10002).map JVal.ofNat).length := by rw [hcon]
    rw [List.length_map, List.length_range',
      List.length_map, List.length_range] at h1
    omega
  · rw [countFetches_map_pageFetch, List.length_range']

/-- C3 (amended): for every N and page size P ≥ 1 with `ceil(N/P)` within
the 10001-page ceiling, `_fetch_paginated` against the canonical mock
endpoint returns exactly the N items in page order and issues exactly
`ceil(N/P)` requests (1 when N = 0). -/
theorem C3_pagination_exact (n P : Nat) (hP : 0 < P) (hn : n ≤ 10001 * P) :
    (fetchPaginated (mockRespond n P) P).1 = (List.range n).map JVal.ofNat ∧
    countFetches (fetchPaginated (mockRespond n P) P).2 =
      (if n = 0 then 1 else (n + P - 1) / P) := by
  have h := mock_loop_eq n P hP hn 10001 0 [] [] (by
    have := (ceil_div_le_iff n P 10001 hP).mpr hn
    omega)
  unfold fetchPaginated
  rw [h]
  dsimp only
  simp only [List.nil_append]
  constructor
  · rw [Nat.zero_mul, List.drop_zero]
  · rw [countFetches_map_pageFetch, List.length_range']
    by_cases h0 : n = 0
    · subst h0
      rw [if_pos rfl]
      have : (0 + P - 1) / P = 0 := by
        rw [Nat.div_eq_of_lt (by omega)]
      omega
    · rw [if_neg h0]
      have h1 : 1 ≤ (n + P - 1) / P := by
        by_contra hcon
        have := (ceil_div_le_iff n P 0 hP).mp (by omega)
        omega
      omega

/-- C3 (witness): N = 5, P = 2 — the 5 items back in order, in
`ceil(5/2)` = 3 requests. -/
theorem C3_pagination_exact_witness :
    (fetchPaginated (mockRespond 5 2) 2).1 = (List.range 5).map JVal.ofNat ∧
    countFetches (fetchPaginated (mockRespond 5 2) 2).2 =
      (if (5 : Nat) = 0 then 1 else (5 + 2 - 1) / 2) :=
  C3_pagination_exact 5 2 (by decide) (by decide)

/-- C7: if pages `0..k-1` succeed with full batches and page `k` answers a
non-success status, `_fetch_paginated` stops right there and returns
exactly the items of the earlier successful pages — no exception, no
retry, no discarding. -/
theorem C7_partial_result_on_listing_failure (respond : Nat → HttpResponse)
    (pageSize : Nat) (contentPath totalPagesPath : String) (k : Nat)
    (hk : k ≤ 10000)
    (hfail : (respond k).statusCode ≠ 200)
    (hsucc : ∀ p, p < k → (respond p).statusCode = 200)
    (hfull : ∀ p, p < k →
      pageSize ≤ (extractContent (respond p).body contentPath).length)
    (htp : ∀ p, p < k →
      extractTotalPages (respond p).body totalPagesPath = none) :
    fetchPaginated respond pageSize contentPath totalPagesPath =
      (((List.range k).map
          (fun p => extractContent (respond p).body contentPath)).flatten,
       (List.range (k + 1)).map Event.pageFetch) := by
  have h := failure_loop_eq respond pageSize contentPath totalPagesPath k hk
    hfail hsucc hfull htp 10001 0 [] [] (by omega) (by omega)
  unfold fetchPaginated
  rw [h, List.nil_append, List.nil_append, Nat.sub_zero,
    List.range_eq_range', List.range_eq_range']

/-- Endpoint for the C7 witness: page 0 serves one item, page 1 fails. -/
def failingRespond : Nat → HttpResponse
  | 0 => { statusCode := 200,
           body := .jobj [("data", .jobj [("content", .jarr [.jstr "a"])])] }
  | _ => { statusCode := 500, body := .jstr "boom" }

/-- C7 (witness): concrete two-page run — the partial result of page 0 is
kept when page 1 fails. -/
theorem C7_partial_result_witness :
    fetchPaginated failingRespond 1 "data.content" "data.totalPages" =
      (((List.range 1).map
          (fun p => extractContent (failingRespond p).body "data.content")).flatten,
       (List.range 2).map Event.pageFetch) :=
  C7_partial_result_on_listing_failure failingRespond 1 "data.content"
    "data.totalPages" 1 (by decide) (by decide) (by decide) (by decide) (by decide)

/-- C8 (counterexample): the adversarial endpoint that always returns a
full page and never resolves a total-pages value drives the engine to
exactly 10001 page fetches (pages 0 through 10000) — more than the 10000
the claim allows. -/
theorem C8_counterexample_10001_pages :
    countFetches (fetchPaginated adversarialRespond 1).2 = 10001 ∧
    ¬ (countFetches (fetchPaginated adversarialRespond 1).2 ≤ 10000) := by
  have h := advers_loop_eq 10001 0 [] [] (by omega)
  unfold fetchPaginated
  rw [h]
  dsimp only
  simp only [List.nil_append]
  rw [countFetches_map_pageFetch, List.length_range']
  omega

/-- C8 (amended): `_fetch_paginated` terminates for every response
function, fetching at most 10001 pages (pages 0 through 10000) before the
hard safety ceiling stops it. -/
theorem C8_pagination_terminates (respond : Nat → HttpResponse)
    (pageSize : Nat) (contentPath totalPagesPath : String) (useOffset : Bool) :
    countFetches (fetchPaginated respond pageSize contentPath totalPagesPath
      useOffset).2 ≤ 10001 := by
  have h := countFetches_loop_le respond pageSize contentPath totalPagesPath
    useOffset 10001 0 [] []
  unfold fetchPaginated
  simpa using h

instance : LawfulBEq JVal where
  eq_of_beq h := (JVal.beq_iff _ _).mp h
  rfl := (JVal.beq_iff _ _).mpr rfl

lemma jLookup_eq_none_of_not_mem (key : String) :
    ∀ fields : List (String × JVal), key ∉ fields.map Prod.fst →
    jLookup fields key = none := by
  intro fields
  induction fields with
  | nil => intro _; rfl
  | cons p rest ih =>
      intro h
      obtain ⟨k, v⟩ := p
      rw [List.map_cons, List.mem_cons, not_or] at h
      rw [jLookup, if_neg (by simp only [beq_iff_eq]; exact fun hh => h.1 hh.symm)]
      exact ih h.2

/-- `clean_for_creation` does not touch the `identifier` entry. -/
lemma jLookup_clean_identifier (fields : List (String × JVal)) :
    jLookup (clean_for_creation fields) "identifier" = jLookup fields "identifier" := by
  induction fields with
  | nil => rfl
  | cons p rest ih =>
      obtain ⟨k, v⟩ := p
      unfold clean_for_creation at ih ⊢
      rw [List.filter_cons]
      by_cases hk : (k == "identifier") = true
      · have hp1 : k = "identifier" := by simpa using hk
        subst hp1
        have hro : (!readOnlyFields.contains (("identifier", v)).1) = true := by
          show (!readOnlyFields.contains "identifier") = true
          decide
        rw [if_pos hro, jLookup, if_pos hk, jLookup, if_pos hk]
      · by_cases hkeep : (!(readOnlyFields.contains (k, v).1)) = true
        · rw [if_pos hkeep]
          rw [jLookup, if_neg (by simpa using hk), jLookup,
            if_neg (by simpa using hk)]
          exact ih
        · rw [if_neg hkeep]
          rw [jLookup, if_neg (by simpa using hk)]
          exact ih

/-- Appending the injected `orgIdentifier` entry does not affect the
`identifier` lookup. -/
lemma jLookup_append_orgIdentifier (fields : List (String × JVal)) (v : JVal) :
    jLookup (fields ++ [("orgIdentifier", v)]) "identifier" =
      jLookup fields "identifier" := by
  induction fields with
  | nil => rfl
  | cons p rest ih =>
      obtain ⟨k, w⟩ := p
      rw [List.cons_append, jLookup, jLookup]
      by_cases hk : (k == "identifier") = true
      · rw [if_pos hk, if_pos hk]
      · rw [if_neg (by simpa using hk), if_neg (by simpa using hk)]
        exact ih

/-- `remove_none_values` never turns a non-string into a string. -/
lemma removeNoneValues_eq_jstr (v : JVal) (s : String) :
    removeNoneValues v = JVal.jstr s → v = JVal.jstr s := by
  cases v with
  | jstr s2 => intro h; rw [removeNoneValues] at h; exact h
  | jnull => intro h; rw [removeNoneValues] at h; exact absurd h (by simp)
  | jnum n => intro h; rw [removeNoneValues] at h; exact absurd h (by simp)
  | jarr items => intro h; rw [removeNoneValues] at h; exact absurd h (by simp)
  | jobj fields => intro h; rw [removeNoneValues] at h; exact absurd h (by simp)

/-- `remove_none_values` on a dict with distinct keys: a lookup afterwards
finds the cleaned value, unless the original value was `None`. -/
lemma jLookup_removeNoneFields (key : String) :
    ∀ fields : List (String × JVal), (fields.map Prod.fst).Nodup →
    jLookup (removeNoneFields fields) key =
      (match jLookup fields key with
       | some v => if v = .jnull then none else some (removeNoneValues v)
       | none => none) := by
  intro fields
  induction fields with
  | nil => intro _; rfl
  | cons p rest ih =>
      intro hnd
      obtain ⟨k, w⟩ := p
      rw [List.map_cons, List.nodup_cons] at hnd
      rw [removeNoneFields]
      by_cases hk : (k == key) = true
      · have hkeq : k = key := by simpa using hk
        have hrest : jLookup rest key = none := by
          apply jLookup_eq_none_of_not_mem
          rw [← hkeq]
          exact hnd.1
        by_cases hw : w = .jnull
        · rw [if_pos hw, ih hnd.2, hrest, jLookup, if_pos hk, hw]
          simp
        · rw [if_neg hw, jLookup, if_pos hk, jLookup, if_pos hk]
          simp [hw]
      · by_cases hw : w = .jnull
        · rw [if_pos hw, ih hnd.2, jLookup, if_neg hk]
        · rw [if_neg hw, jLookup, if_neg hk, jLookup, if_neg hk]
          exact ih hnd.2

/-- C6: every scope from `_get_all_scopes` satisfies
`projectId ≠ None → orgId ≠ None`, its first yielded scope is always the
account scope `(None, None)`, and every scope from `_get_project_scopes`
has truthy (non-None, non-empty) organization and project identifiers. -/
theorem C6_scope_invariants (orgs projects : List JVal)
    (projectsOf : JVal → List JVal) (resAll : List Scope)
    (resProj : List (JVal × JVal))
    (hAll : getAllScopes orgs projects = some resAll)
    (hProj : getProjectScopes projectsOf orgs = some resProj) :
    resAll.head? = some (none, none) ∧
    (∀ s ∈ resAll, s.2.isSome → s.1.isSome) ∧
    (∀ sp ∈ resProj, pyTruthy sp.1 = true ∧ pyTruthy sp.2 = true) := by
  unfold getAllScopes at hAll
  rcases Option.bind_eq_some.mp hAll with ⟨orgScopes, hO, hAll⟩
  rcases Option.bind_eq_some.mp hAll with ⟨projScopes, hPj, hAll⟩
  cases hAll
  refine ⟨rfl, ?_, ?_⟩
  · intro s hs hsome
    rcases List.mem_cons.mp hs with hh | ht
    · subst hh; simp at hsome
    · rcases List.mem_append.mp ht with h1 | h2
      · have := collectOrgScopes_shape orgs orgScopes hO s h1
        rw [this] at hsome
        simp at hsome
      · exact collectProjectScopes_shape projects projScopes hPj s h2
  · intro sp hsp
    exact getProjectScopes_truthy projectsOf orgs resProj hProj sp hsp

/-- Source listing for the C6 witness. -/
def orgsC6 : List JVal :=
  [.jobj [("organization", .jobj [("identifier", .jstr "o1")])]]

/-- Flat project listing for the C6 witness. -/
def projectsC6 : List JVal :=
  [.jobj [("project", .jobj [("orgIdentifier", .jstr "o1"),
    ("identifier", .jstr "p1")])]]

/-- C6 (witness): the invariants hold on a concrete one-org, one-project
tenant. -/
theorem C6_scope_invariants_witness :
    ([(none, none), (some (JVal.jstr "o1"), none),
      (some (JVal.jstr "o1"), some (JVal.jstr "p1"))] : List Scope).head? =
      some (none, none) ∧
    (∀ s ∈ ([(none, none), (some (JVal.jstr "o1"), none),
      (some (JVal.jstr "o1"), some (JVal.jstr "p1"))] : List Scope),
      s.2.isSome → s.1.isSome) ∧
    (∀ sp ∈ [(JVal.jstr "o1", JVal.jstr "p1")],
      pyTruthy sp.1 = true ∧ pyTruthy sp.2 = true) :=
  C6_scope_invariants orgsC6 projectsC6 (fun _ => projectsC6) _ _
    (by decide) (by decide)

/-!
## Trace predicates for the rate-limit and default-skip claims
-/

mutual

/-- Every destination write call in the trace is followed by a
`time.sleep` before any further write happens. -/
def sleepAfterWrite : List Event → Bool
  | [] => true
  | .writeCall _ _ :: rest => writeAwaitsSleep rest
  | _ :: rest => sleepAfterWrite rest

/-- State after an unanswered write: a sleep must come before the next
write. -/
def writeAwaitsSleep : List Event → Bool
  | [] => false
  | .sleep :: rest => sleepAfterWrite rest
  | .writeCall _ _ :: _ => false
  | _ :: rest => writeAwaitsSleep rest

end

/-- The identifier inside a `{wrapper: {...}}` create payload. -/
def payloadIdentifier (wrapper : String) (body : JVal) : Option JVal :=
  match body with
  | .jobj f =>
      match jLookup f wrapper with
      | some (.jobj g) => jLookup g "identifier"
      | _ => none
  | _ => none

/-- A write call that would create the built-in resource `defaultId`. -/
def eventCreatesDefault (wrapper defaultId : String) : Event → Bool
  | .writeCall r body => r == wrapper &&
      (payloadIdentifier wrapper body == some (JVal.jstr defaultId))
  | _ => false

/-- An export of the built-in resource `defaultId`. -/
def eventExportsDefault (resource defaultId : String) : Event → Bool
  | .exportFile r id => r == resource && id == JVal.jstr defaultId
  | _ => false

/-- The identifier `migrate_organizations` extracts from a listed org
item. -/
def orgIdentifierOf (org : JVal) : Option JVal :=
  (pyDictGetD org "organization" (.jstr "")).bind fun orgData =>
  pyDictGetD orgData "identifier" (.jstr "")

/-- The identifier `migrate_projects` extracts from a listed project
item. -/
def projIdentifierOf (project : JVal) : Option JVal :=
  (pyDictGetD project "project" project).bind fun projectData =>
  pyDictGetD projectData "identifier" (.jstr "")

/-- The org item is the built-in default organization. -/
def isDefaultOrgItem (org : JVal) : Bool :=
  match orgIdentifierOf org with
  | some v => is_default_organization v
  | none => false

/-- The project item is the built-in default project. -/
def isDefaultProjItem (project : JVal) : Bool :=
  match projIdentifierOf project with
  | some v => is_default_project v
  | none => false

/-- The listed project item's dict has distinct keys (always true of data
deserialized from JSON, where duplicates cannot occur). -/
def projKeysNodup (project : JVal) : Bool :=
  match pyDictGetD project "project" project with
  | some (.jobj fields) => decide ((fields.map Prod.fst).Nodup)
  | _ => true

lemma create_organization_shape (respond : JVal → Nat × String)
    (fields : List (String × JVal)) (dryRun : Bool) (oe : Bool × List Event)
    (h : create_organization respond (.jobj fields) dryRun = some oe) :
    oe.2 = [] ∨
    oe.2 = [Event.writeCall "organization"
      (JVal.jobj [("organization", .jobj (clean_for_creation fields))])] ∨
    ∃ lid, oe.2 = [Event.writeCall "organization"
      (JVal.jobj [("organization", .jobj (clean_for_creation fields))]),
      Event.logAlreadyExists "organization" lid] := by
  unfold create_organization at h
  dsimp only at h
  split at h
  · cases Option.some.inj h
    exact Or.inl rfl
  · split at h
    · cases Option.some.inj h
      exact Or.inr (Or.inl rfl)
    · split at h
      · cases Option.some.inj h
        exact Or.inr (Or.inr ⟨_, rfl⟩)
      · cases Option.some.inj h
        exact Or.inr (Or.inl rfl)

lemma create_project_shape (respond : JVal → Nat × String)
    (fields : List (String × JVal)) (orgId : JVal) (dryRun : Bool)
    (oe : Bool × List Event)
    (h : create_project respond (.jobj fields) orgId dryRun = some oe) :
    ∃ fields2, (fields2 = fields ∨ fields2 = fields ++ [("orgIdentifier", orgId)]) ∧
      (oe.2 = [] ∨
       oe.2 = [Event.writeCall "project"
         (JVal.jobj [("project", .jobj (clean_for_creation fields2))])] ∨
       ∃ lid, oe.2 = [Event.writeCall "project"
         (JVal.jobj [("project", .jobj (clean_for_creation fields2))]),
         Event.logAlreadyExists "project" lid]) := by
  unfold create_project at h
  dsimp only at h
  by_cases hfc : (pyTruthy orgId && !(jHasKey fields "orgIdentifier")) = true
  · rw [if_pos hfc] at h
    refine ⟨fields ++ [("orgIdentifier", orgId)], Or.inr rfl, ?_⟩
    split at h
    · cases Option.some.inj h
      exact Or.inl rfl
    · split at h
      · cases Option.some.inj h
        exact Or.inr (Or.inl rfl)
      · split at h
        · cases Option.some.inj h
          exact Or.inr (Or.inr ⟨_, rfl⟩)
        · cases Option.some.inj h
          exact Or.inr (Or.inl rfl)
  · rw [if_neg hfc] at h
    refine ⟨fields, Or.inl rfl, ?_⟩
    split at h
    · cases Option.some.inj h
      exact Or.inl rfl
    · split at h
      · cases Option.some.inj h
        exact Or.inr (Or.inl rfl)
      · split at h
        · cases Option.some.inj h
          exact Or.inr (Or.inr ⟨_, rfl⟩)
        · cases Option.some.inj h
          exact Or.inr (Or.inl rfl)

lemma eventCreatesDefault_write_org (fields : List (String × JVal))
    (hne : ((jLookup fields "identifier").getD (.jstr "") == JVal.jstr "default") = false) :
    eventCreatesDefault "organization" "default"
      (Event.writeCall "organization"
        (JVal.jobj [("organization", .jobj (clean_for_creation fields))])) = false := by
  show (("organization" : String) == "organization" &&
    (payloadIdentifier "organization"
      (JVal.jobj [("organization", JVal.jobj (clean_for_creation fields))]) ==
      some (JVal.jstr "default"))) = false
  rw [show payloadIdentifier "organization"
      (JVal.jobj [("organization", JVal.jobj (clean_for_creation fields))]) =
      jLookup (clean_for_creation fields) "identifier" from rfl,
    jLookup_clean_identifier]
  cases hjl : jLookup fields "identifier" with
  | none => rfl
  | some v =>
      rw [hjl] at hne
      exact hne

lemma migrateOrgItem_props (dest : Option (JVal → Nat × String)) (dryRun : Bool)
    (org : JVal) (de : MigrationResult × List Event)
    (h : migrateOrgItem dest dryRun org = some de) :
    (∀ tr, sleepAfterWrite (de.2 ++ tr) = sleepAfterWrite tr) ∧
    de.1.skipped = (if isDefaultOrgItem org then 1 else 0) ∧
    (isDefaultOrgItem org = true → de = (⟨0, 0, 1⟩, [])) ∧
    (∀ e ∈ de.2, eventCreatesDefault "organization" "default" e = false ∧
      eventExportsDefault "organization" "default" e = false) := by
  unfold migrateOrgItem at h
  rcases Option.bind_eq_some.mp h with ⟨orgData, hA, h⟩
  rcases Option.bind_eq_some.mp h with ⟨identifier, hB, h⟩
  have hdefeq : isDefaultOrgItem org = is_default_organization identifier := by
    unfold isDefaultOrgItem orgIdentifierOf
    rw [hA, Option.some_bind, hB]
  by_cases hdef : is_default_organization identifier = true
  · rw [if_pos hdef] at h
    cases Option.some.inj h
    rw [hdefeq, hdef]
    exact ⟨fun tr => rfl, rfl, fun _ => rfl, by intro e he; simp at he⟩
  · rw [if_neg hdef] at h
    have hdef2 : is_default_organization identifier = false := by
      revert hdef
      cases is_default_organization identifier <;> simp
    have hdefitem : isDefaultOrgItem org = false := by rw [hdefeq]; exact hdef2
    obtain ⟨fields, rfl⟩ : ∃ fields, orgData = JVal.jobj fields := by
      cases orgData with
      | jobj fields => exact ⟨fields, rfl⟩
      | jnull => exact Option.noConfusion hB
      | jnum n => exact Option.noConfusion hB
      | jstr s => exact Option.noConfusion hB
      | jarr items => exact Option.noConfusion hB
    have hident : (jLookup fields "identifier").getD (.jstr "") = identifier :=
      Option.some.inj hB
    have hidne : (identifier == JVal.jstr "default") = false := hdef2
    have hexpf : eventExportsDefault "organization" "default"
        (Event.exportFile "organization" identifier) = false := by
      show (("organization" : String) == "organization" &&
        (identifier == JVal.jstr "default")) = false
      rw [hidne]
      rfl
    have hwf : eventCreatesDefault "organization" "default"
        (Event.writeCall "organization"
          (JVal.jobj [("organization", .jobj (clean_for_creation fields))])) = false :=
      eventCreatesDefault_write_org fields (by rw [hident]; exact hidne)
    rw [hdefitem]
    split at h
    · cases Option.some.inj h
      exact ⟨fun tr => rfl, rfl, by intro hc; exact Bool.noConfusion hc,
        by intro e he; simp at he⟩
    · split at h
      · cases Option.some.inj h
        refine ⟨fun tr => rfl, rfl, by intro hc; exact Bool.noConfusion hc, ?_⟩
        intro e he
        simp only [List.cons_append, List.nil_append, List.mem_cons,
          List.not_mem_nil, or_false] at he
        rcases he with rfl | rfl
        · exact ⟨rfl, hexpf⟩
        · exact ⟨rfl, rfl⟩
      · cases dest with
        | some respond =>
          rcases Option.bind_eq_some.mp h with ⟨oe, hC, h⟩
          have hshape := create_organization_shape respond fields dryRun oe hC
          split at h
          all_goals
            cases Option.some.inj h
          all_goals
            rcases hshape with hev | hev | ⟨lid, hev⟩ <;> rw [hev]
          all_goals
            refine ⟨fun tr => rfl, rfl, by intro hc; exact Bool.noConfusion hc, ?_⟩
          all_goals
            intro e he
          all_goals
            simp only [List.cons_append, List.nil_append, List.mem_cons,
              List.not_mem_nil, or_false] at he
          · rcases he with rfl | rfl
            · exact ⟨rfl, hexpf⟩
            · exact ⟨rfl, rfl⟩
          · rcases he with rfl | rfl | rfl
            · exact ⟨rfl, hexpf⟩
            · exact ⟨hwf, rfl⟩
            · exact ⟨rfl, rfl⟩
          · rcases he with rfl | rfl | rfl | rfl
            · exact ⟨rfl, hexpf⟩
            · exact ⟨hwf, rfl⟩
            · exact ⟨rfl, rfl⟩
            · exact ⟨rfl, rfl⟩
          · rcases he with rfl | rfl
            · exact ⟨rfl, hexpf⟩
            · exact ⟨rfl, rfl⟩
          · rcases he with rfl | rfl | rfl
            · exact ⟨rfl, hexpf⟩
            · exact ⟨hwf, rfl⟩
            · exact ⟨rfl, rfl⟩
          · rcases he with rfl | rfl | rfl | rfl
            · exact ⟨rfl, hexpf⟩
            · exact ⟨hwf, rfl⟩
            · exact ⟨rfl, rfl⟩
            · exact ⟨rfl, rfl⟩
        | none =>
          cases Option.some.inj h
          refine ⟨fun tr => rfl, rfl, by intro hc; exact Bool.noConfusion hc, ?_⟩
          intro e he
          simp only [List.cons_append, List.nil_append, List.mem_cons,
            List.not_mem_nil, or_false] at he
          rcases he with rfl | rfl
          · exact ⟨rfl, hexpf⟩
          · exact ⟨rfl, rfl⟩

lemma eventCreatesDefault_write_proj (pfields fields2 : List (String × JVal))
    (orgId : JVal) (hnd : (pfields.map Prod.fst).Nodup)
    (hf2 : fields2 = removeNoneFields pfields ∨
           fields2 = removeNoneFields pfields ++ [("orgIdentifier", orgId)])
    (hne : ((jLookup pfields "identifier").getD (.jstr "") ==
      JVal.jstr "default_project") = false) :
    eventCreatesDefault "project" "default_project"
      (Event.writeCall "project"
        (JVal.jobj [("project", .jobj (clean_for_creation fields2))])) = false := by
  show (("project" : String) == "project" &&
    (payloadIdentifier "project"
      (JVal.jobj [("project", JVal.jobj (clean_for_creation fields2))]) ==
      some (JVal.jstr "default_project"))) = false
  rw [show payloadIdentifier "project"
      (JVal.jobj [("project", JVal.jobj (clean_for_creation fields2))]) =
      jLookup (clean_for_creation fields2) "identifier" from rfl,
    jLookup_clean_identifier]
  have hlk : jLookup fields2 "identifier" =
      jLookup (removeNoneFields pfields) "identifier" := by
    rcases hf2 with rfl | rfl
    · rfl
    · exact jLookup_append_orgIdentifier _ _
  cases hjl : jLookup pfields "identifier" with
  | none =>
      rw [hlk, jLookup_removeNoneFields "identifier" pfields hnd, hjl]
      rfl
  | some v =>
      rw [hlk, jLookup_removeNoneFields "identifier" pfields hnd, hjl]
      rw [hjl] at hne
      by_cases hv : v = JVal.jnull
      · subst hv
        rfl
      · show ((true : Bool) &&
          ((if v = JVal.jnull then none else some (removeNoneValues v)) ==
            some (JVal.jstr "default_project"))) = false
        rw [if_neg hv]
        cases hbe : removeNoneValues v == JVal.jstr "default_project"
        · show (removeNoneValues v == JVal.jstr "default_project") = false
          exact hbe
        · exfalso
          have heq : removeNoneValues v = JVal.jstr "default_project" :=
            (JVal.beq_iff _ _).mp hbe
          have hveq : v = JVal.jstr "default_project" :=
            removeNoneValues_eq_jstr v _ heq
          rw [hveq] at hne
          exact absurd hne (by decide)

lemma migrateProjItem_props (dest : Option (JVal → Nat × String)) (dryRun : Bool)
    (project : JVal) (de : MigrationResult × List Event)
    (hnd : projKeysNodup project = true)
    (h : migrateProjItem dest dryRun project = some de) :
    (∀ tr, sleepAfterWrite (de.2 ++ tr) = sleepAfterWrite tr) ∧
    de.1.skipped = (if isDefaultProjItem project then 1 else 0) ∧
    (isDefaultProjItem project = true → de = (⟨0, 0, 1⟩, [])) ∧
    (∀ e ∈ de.2, eventCreatesDefault "project" "default_project" e = false ∧
      eventExportsDefault "project" "default_project" e = false) := by
  unfold migrateProjItem at h
  rcases Option.bind_eq_some.mp h with ⟨projectData, hA, h⟩
  rcases Option.bind_eq_some.mp h with ⟨identifier, hB, h⟩
  rcases Option.bind_eq_some.mp h with ⟨orgId, hC0, h⟩
  have hdefeq : isDefaultProjItem project = is_default_project identifier := by
    unfold isDefaultProjItem projIdentifierOf
    rw [hA, Option.some_bind, hB]
  by_cases hdef : is_default_project identifier = true
  · rw [if_pos hdef] at h
    cases Option.some.inj h
    rw [hdefeq, hdef]
    exact ⟨fun tr => rfl, rfl, fun _ => rfl, by intro e he; simp at he⟩
  · rw [if_neg hdef] at h
    have hdef2 : is_default_project identifier = false := by
      revert hdef
      cases is_default_project identifier <;> simp
    have hdefitem : isDefaultProjItem project = false := by rw [hdefeq]; exact hdef2
    obtain ⟨pfields, rfl⟩ : ∃ f, projectData = JVal.jobj f := by
      cases projectData with
      | jobj f => exact ⟨f, rfl⟩
      | jnull => exact Option.noConfusion hB
      | jnum n => exact Option.noConfusion hB
      | jstr s => exact Option.noConfusion hB
      | jarr items => exact Option.noConfusion hB
    have hident : (jLookup pfields "identifier").getD (.jstr "") = identifier :=
      Option.some.inj hB
    have hndf : (pfields.map Prod.fst).Nodup := by
      unfold projKeysNodup at hnd
      rw [hA] at hnd
      exact of_decide_eq_true hnd
    have hidne : (identifier == JVal.jstr "default_project") = false := hdef2
    have hexpf : eventExportsDefault "project" "default_project"
        (Event.exportFile "project" identifier) = false := by
      show (("project" : String) == "project" &&
        (identifier == JVal.jstr "default_project")) = false
      rw [hidne]
      rfl
    rw [hdefitem]
    rw [show removeNoneValues (JVal.jobj pfields) =
      JVal.jobj (removeNoneFields pfields) from rfl] at h
    split at h
    · cases Option.some.inj h
      exact ⟨fun tr => rfl, rfl, by intro hc; exact Bool.noConfusion hc,
        by intro e he; simp at he⟩
    · split at h
      · cases Option.some.inj h
        refine ⟨fun tr => rfl, rfl, by intro hc; exact Bool.noConfusion hc, ?_⟩
        intro e he
        simp only [List.cons_append, List.nil_append, List.mem_cons,
          List.not_mem_nil, or_false] at he
        rcases he with rfl | rfl
        · exact ⟨rfl, hexpf⟩
        · exact ⟨rfl, rfl⟩
      · cases dest with
        | some respond =>
          rcases Option.bind_eq_some.mp h with ⟨oe, hC, h⟩
          obtain ⟨fields2, hf2, hshape⟩ :=
            create_project_shape respond (removeNoneFields pfields) orgId dryRun oe hC
          have hwf : eventCreatesDefault "project" "default_project"
              (Event.writeCall "project"
                (JVal.jobj [("project", .jobj (clean_for_creation fields2))])) = false :=
            eventCreatesDefault_write_proj pfields fields2 orgId hndf hf2
              (by rw [hident]; exact hidne)
          split at h
          all_goals
            cases Option.some.inj h
          all_goals
            rcases hshape with hev | hev | ⟨lid, hev⟩ <;> rw [hev]
          all_goals
            refine ⟨fun tr => rfl, rfl, by intro hc; exact Bool.noConfusion hc, ?_⟩
          all_goals
            intro e he
          all_goals
            simp only [List.cons_append, List.nil_append, List.mem_cons,
              List.not_mem_nil, or_false] at he
          · rcases he with rfl | rfl
            · exact ⟨rfl, hexpf⟩
            · exact ⟨rfl, rfl⟩
          · rcases he with rfl | rfl | rfl
            · exact ⟨rfl, hexpf⟩
            · exact ⟨hwf, rfl⟩
            · exact ⟨rfl, rfl⟩
          · rcases he with rfl | rfl | rfl | rfl
            · exact ⟨rfl, hexpf⟩
            · exact ⟨hwf, rfl⟩
            · exact ⟨rfl, rfl⟩
            · exact ⟨rfl, rfl⟩
          · rcases he with rfl | rfl
            · exact ⟨rfl, hexpf⟩
            · exact ⟨rfl, rfl⟩
          · rcases he with rfl | rfl | rfl
            · exact ⟨rfl, hexpf⟩
            · exact ⟨hwf, rfl⟩
            · exact ⟨rfl, rfl⟩
          · rcases he with rfl | rfl | rfl | rfl
            · exact ⟨rfl, hexpf⟩
            · exact ⟨hwf, rfl⟩
            · exact ⟨rfl, rfl⟩
            · exact ⟨rfl, rfl⟩
        | none =>
          cases Option.some.inj h
          refine ⟨fun tr => rfl, rfl, by intro hc; exact Bool.noConfusion hc, ?_⟩
          intro e he
          simp only [List.cons_append, List.nil_append, List.mem_cons,
            List.not_mem_nil, or_false] at he
          rcases he with rfl | rfl
          · exact ⟨rfl, hexpf⟩
          · exact ⟨rfl, rfl⟩

lemma migrateOrganizations_props (dest : Option (JVal → Nat × String))
    (dryRun : Bool) : ∀ (orgs : List JVal) (res : MigrationResult × List Event),
    migrateOrganizations dest dryRun orgs = some res →
    sleepAfterWrite res.2 = true ∧
    res.1.skipped = (orgs.filter isDefaultOrgItem).length ∧
    (∀ e ∈ res.2, eventCreatesDefault "organization" "default" e = false ∧
      eventExportsDefault "organization" "default" e = false) := by
  intro orgs
  induction orgs with
  | nil =>
      intro res h
      cases Option.some.inj h
      exact ⟨rfl, rfl, by intro e he; simp at he⟩
  | cons org rest ih =>
      intro res h
      rw [migrateOrganizations] at h
      rcases Option.bind_eq_some.mp h with ⟨de, hD, h⟩
      rcases Option.bind_eq_some.mp h with ⟨rt, hR, h⟩
      cases Option.some.inj h
      obtain ⟨hsleep, hskip, _hdef, hev⟩ := migrateOrgItem_props dest dryRun org de hD
      obtain ⟨ihs, ihskip, ihev⟩ := ih rt hR
      refine ⟨?_, ?_, ?_⟩
      · show sleepAfterWrite (de.2 ++ rt.2) = true
        rw [hsleep rt.2, ihs]
      · show de.1.skipped + rt.1.skipped =
          (List.filter isDefaultOrgItem (org :: rest)).length
        rw [hskip, ihskip, List.filter_cons]
        by_cases hd : isDefaultOrgItem org = true
        · rw [if_pos hd, if_pos hd, List.length_cons]
          omega
        · rw [if_neg hd, if_neg hd]
          omega
      · intro e he
        rcases List.mem_append.mp he with h1 | h2
        · exact hev e h1
        · exact ihev e h2

lemma migrateProjects_props (dest : Option (JVal → Nat × String))
    (dryRun : Bool) : ∀ (projects : List JVal) (res : MigrationResult × List Event),
    (∀ p ∈ projects, projKeysNodup p = true) →
    migrateProjects dest dryRun projects = some res →
    sleepAfterWrite res.2 = true ∧
    res.1.skipped = (projects.filter isDefaultProjItem).length ∧
    (∀ e ∈ res.2, eventCreatesDefault "project" "default_project" e = false ∧
      eventExportsDefault "project" "default_project" e = false) := by
  intro projects
  induction projects with
  | nil =>
      intro res _ h
      cases Option.some.inj h
      exact ⟨rfl, rfl, by intro e he; simp at he⟩
  | cons project rest ih =>
      intro res hnd h
      rw [migrateProjects] at h
      rcases Option.bind_eq_some.mp h with ⟨de, hD, h⟩
      rcases Option.bind_eq_some.mp h with ⟨rt, hR, h⟩
      cases Option.some.inj h
      obtain ⟨hsleep, hskip, _hdef, hev⟩ :=
        migrateProjItem_props dest dryRun project de
          (hnd project (List.mem_cons_self project rest)) hD
      obtain ⟨ihs, ihskip, ihev⟩ :=
        ih rt (fun p hp => hnd p (List.mem_cons_of_mem project hp)) hR
      refine ⟨?_, ?_, ?_⟩
      · show sleepAfterWrite (de.2 ++ rt.2) = true
        rw [hsleep rt.2, ihs]
      · show de.1.skipped + rt.1.skipped =
          (List.filter isDefaultProjItem (project :: rest)).length
        rw [hskip, ihskip, List.filter_cons]
        by_cases hd : isDefaultProjItem project = true
        · rw [if_pos hd, if_pos hd, List.length_cons]
          omega
        · rw [if_neg hd, if_neg hd]
          omega
      · intro e he
        rcases List.mem_append.mp he with h1 | h2
        · exact hev e h1
        · exact ihev e h2

lemma migrateOrgItem_default (dest : Option (JVal → Nat × String))
    (dryRun : Bool) (org : JVal) (hd : isDefaultOrgItem org = true) :
    migrateOrgItem dest dryRun org = some (⟨0, 0, 1⟩, []) := by
  unfold isDefaultOrgItem at hd
  cases hid : orgIdentifierOf org with
  | none => rw [hid] at hd; exact Bool.noConfusion hd
  | some v =>
      rw [hid] at hd
      unfold orgIdentifierOf at hid
      rcases Option.bind_eq_some.mp hid with ⟨orgData, hA, hB⟩
      unfold migrateOrgItem
      rw [hA, Option.some_bind, hB, Option.some_bind, if_pos hd]

lemma migrateProjItem_default (dest : Option (JVal → Nat × String))
    (dryRun : Bool) (project : JVal) (hd : isDefaultProjItem project = true) :
    migrateProjItem dest dryRun project = some (⟨0, 0, 1⟩, []) := by
  unfold isDefaultProjItem at hd
  cases hid : projIdentifierOf project with
  | none => rw [hid] at hd; exact Bool.noConfusion hd
  | some v =>
      rw [hid] at hd
      unfold projIdentifierOf at hid
      rcases Option.bind_eq_some.mp hid with ⟨projectData, hA, hB⟩
      obtain ⟨pfields, rfl⟩ : ∃ f, projectData = JVal.jobj f := by
        cases projectData with
        | jobj f => exact ⟨f, rfl⟩
        | jnull => exact Option.noConfusion hB
        | jnum n => exact Option.noConfusion hB
        | jstr s => exact Option.noConfusion hB
        | jarr items => exact Option.noConfusion hB
      unfold migrateProjItem
      rw [hA, Option.some_bind, hB, Option.some_bind]
      rw [show pyDictGetD (JVal.jobj pfields) "orgIdentifier" (.jstr "") =
        some ((jLookup pfields "orgIdentifier").getD (.jstr "")) from rfl,
        Option.some_bind, if_pos hd]

lemma sleepAfterWrite_export (r : String) (v : JVal) (rest : List Event) :
    sleepAfterWrite (Event.exportFile r v :: rest) = sleepAfterWrite rest := rfl

lemma create_project_sleep (respond : JVal → Nat × String)
    (projectData orgIdentifier : JVal) (dryRun : Bool) (oe : Bool × List Event)
    (h : create_project respond projectData orgIdentifier dryRun = some oe)
    (tr : List Event) :
    sleepAfterWrite (oe.2 ++ Event.sleep :: tr) = sleepAfterWrite tr := by
  unfold create_project at h
  cases projectData with
  | jobj fields =>
      dsimp only at h
      split at h
      · cases Option.some.inj h
        rfl
      · split at h
        · split at h
          · cases Option.some.inj h
            rfl
          · split at h
            · cases Option.some.inj h
              rfl
            · cases Option.some.inj h
              rfl
        · split at h
          · cases Option.some.inj h
            rfl
          · split at h
            · cases Option.some.inj h
              rfl
            · cases Option.some.inj h
              rfl
  | jnull => simp at h
  | jnum n => simp at h
  | jstr s => simp at h
  | jarr items => simp at h

lemma create_pipeline_sleep (respond : JVal → Nat × String) (accountId : String)
    (yamlContent identifier name orgIdentifier projectIdentifier tags : JVal)
    (tr : List Event) :
    sleepAfterWrite ((create_pipeline respond accountId yamlContent identifier
      name orgIdentifier projectIdentifier tags).2 ++ Event.sleep :: tr) =
      sleepAfterWrite tr := by
  unfold create_pipeline
  dsimp only
  split
  · split
    · rfl
    · split
      · rfl
      · rfl
  · split
    · rfl
    · split
      · rfl
      · rfl

lemma import_pipeline_yaml_sleep (respond : JVal → Nat × String)
    (gitDetails pipelineIdentifier pipelineDescription : JVal) (tr : List Event) :
    sleepAfterWrite ((import_pipeline_yaml respond gitDetails pipelineIdentifier
      pipelineDescription).2 ++ Event.sleep :: tr) = sleepAfterWrite tr := by
  unfold import_pipeline_yaml
  dsimp only
  split
  · split
    · rfl
    · split
      · rfl
      · rfl
  · split
    · rfl
    · split
      · rfl
      · rfl

lemma migrateProjItem_sleep (dest : Option (JVal → Nat × String)) (dryRun : Bool)
    (project : JVal) (de : MigrationResult × List Event)
    (h : migrateProjItem dest dryRun project = some de) :
    ∀ tr, sleepAfterWrite (de.2 ++ tr) = sleepAfterWrite tr := by
  unfold migrateProjItem at h
  rcases Option.bind_eq_some.mp h with ⟨projectData, _hA, h⟩
  rcases Option.bind_eq_some.mp h with ⟨identifier, _hB, h⟩
  rcases Option.bind_eq_some.mp h with ⟨orgId, _hC, h⟩
  split at h
  · cases Option.some.inj h
    exact fun tr => rfl
  · split at h
    · cases Option.some.inj h
      exact fun tr => rfl
    · dsimp only at h
      split at h
      · cases Option.some.inj h
        exact fun tr => rfl
      · cases dest with
        | some respond =>
            rcases Option.bind_eq_some.mp h with ⟨oe, hD, h⟩
            split at h <;>
              (cases Option.some.inj h
               intro tr
               simp only [List.append_assoc, List.cons_append, List.nil_append,
                 sleepAfterWrite_export]
               exact create_project_sleep respond _ orgId dryRun oe hD tr)
        | none =>
            cases Option.some.inj h
            exact fun tr => rfl

lemma migrateProjects_sleep (dest : Option (JVal → Nat × String))
    (dryRun : Bool) : ∀ (projects : List JVal)
    (res : MigrationResult × List Event),
    migrateProjects dest dryRun projects = some res →
    ∀ tr, sleepAfterWrite (res.2 ++ tr) = sleepAfterWrite tr := by
  intro projects
  induction projects with
  | nil =>
      intro res h tr
      cases Option.some.inj h
      rfl
  | cons project rest ih =>
      intro res h tr
      rw [migrateProjects] at h
      rcases Option.bind_eq_some.mp h with ⟨de, hD, h⟩
      rcases Option.bind_eq_some.mp h with ⟨rt, hR, h⟩
      cases Option.some.inj h
      show sleepAfterWrite ((de.2 ++ rt.2) ++ tr) = sleepAfterWrite tr
      rw [List.append_assoc, migrateProjItem_sleep dest dryRun project de hD,
        ih rt hR]

lemma snd_of_ite_some (c : Prop) [Decidable c] (r1 r2 : MigrationResult)
    (t : List Event) (de : MigrationResult × List Event)
    (h : (if c then some (r1, t) else some (r2, t)) = some de) : de.2 = t := by
  split at h <;> (cases Option.some.inj h; rfl)

lemma migratePipelineItem_sleep (env : PipelineEnv)
    (orgId projectId pipeline : JVal) (de : MigrationResult × List Event)
    (h : migratePipelineItem env orgId projectId pipeline = some de) :
    ∀ tr, sleepAfterWrite (de.2 ++ tr) = sleepAfterWrite tr := by
  unfold migratePipelineItem at h
  rcases Option.bind_eq_some.mp h with ⟨pipelineItem, _hA, h⟩
  rcases Option.bind_eq_some.mp h with ⟨identifier, _hB, h⟩
  rcases Option.bind_eq_some.mp h with ⟨name, _hC, h⟩
  dsimp only at h
  revert h
  generalize env.pipelineDataOf identifier orgId projectId = pd
  intro h
  by_cases h1 : (!pyTruthy pd) = true
  · rw [if_pos h1] at h
    cases Option.some.inj h
    exact fun tr => rfl
  · rw [if_neg h1] at h
    split at h
    case _ pdFields =>
        by_cases h2 : is_gitx_resource pdFields = true
        · rw [if_pos h2] at h
          by_cases h3 :
              (!pyTruthy ((jLookup pdFields "gitDetails").getD (.jobj []))) = true
          · rw [if_pos h3] at h
            cases Option.some.inj h
            exact fun tr => rfl
          · rw [if_neg h3] at h
            rcases Option.bind_eq_some.mp h with ⟨gitDetails2, _hD, h⟩
            by_cases h4 : env.dryRun = true
            · rw [if_pos h4] at h
              cases Option.some.inj h
              intro tr
              split <;> rfl
            · rw [if_neg h4] at h
              have hde2 := snd_of_ite_some _ _ _ _ _ h
              intro tr
              rw [hde2]
              simp only [List.append_assoc, List.cons_append, List.nil_append]
              repeat' split
              all_goals
                simp only [List.cons_append, List.nil_append,
                  sleepAfterWrite_export]
              all_goals
                exact import_pipeline_yaml_sleep _ _ _ _ tr
        · rw [if_neg h2] at h
          by_cases h3 :
              (!pyTruthy ((jLookup pdFields "yamlPipeline").getD (.jstr ""))) = true
          · rw [if_pos h3] at h
            cases Option.some.inj h
            exact fun tr => rfl
          · rw [if_neg h3] at h
            by_cases h4 : env.dryRun = true
            · rw [if_pos h4] at h
              cases Option.some.inj h
              exact fun tr => rfl
            · rw [if_neg h4] at h
              have hde2 := snd_of_ite_some _ _ _ _ _ h
              intro tr
              rw [hde2]
              simp only [List.append_assoc, List.cons_append, List.nil_append,
                sleepAfterWrite_export]
              exact create_pipeline_sleep _ _ _ _ _ _ _ _ tr
    case _ => exact Option.noConfusion h

lemma migratePipelinesAtScope_sleep (env : PipelineEnv) (orgId projectId : JVal) :
    ∀ (pipelines : List JVal) (res : MigrationResult × List Event),
    migratePipelinesAtScope env orgId projectId pipelines = some res →
    ∀ tr, sleepAfterWrite (res.2 ++ tr) = sleepAfterWrite tr := by
  intro pipelines
  induction pipelines with
  | nil =>
      intro res h tr
      cases Option.some.inj h
      rfl
  | cons p rest ih =>
      intro res h tr
      rw [migratePipelinesAtScope] at h
      rcases Option.bind_eq_some.mp h with ⟨de, hD, h⟩
      rcases Option.bind_eq_some.mp h with ⟨rt, hR, h⟩
      cases Option.some.inj h
      show sleepAfterWrite ((de.2 ++ rt.2) ++ tr) = sleepAfterWrite tr
      rw [List.append_assoc,
        migratePipelineItem_sleep env orgId projectId p de hD, ih rt hR]

lemma migratePipelinesScopes_sleep (env : PipelineEnv) :
    ∀ (scopes : List (JVal × JVal)) (res : MigrationResult × List Event),
    migratePipelinesScopes env scopes = some res →
    ∀ tr, sleepAfterWrite (res.2 ++ tr) = sleepAfterWrite tr := by
  intro scopes
  induction scopes with
  | nil =>
      intro res h tr
      cases Option.some.inj h
      rfl
  | cons sc rest ih =>
      intro res h tr
      rw [migratePipelinesScopes] at h
      rcases Option.bind_eq_some.mp h with ⟨de, hD, h⟩
      rcases Option.bind_eq_some.mp h with ⟨rt, hR, h⟩
      cases Option.some.inj h
      show sleepAfterWrite ((de.2 ++ rt.2) ++ tr) = sleepAfterWrite tr
      rw [List.append_assoc,
        migratePipelinesAtScope_sleep env sc.1 sc.2 _ de hD, ih rt hR]

lemma migratePipelines_sleep (env : PipelineEnv) (orgs : List JVal)
    (res : MigrationResult × List Event)
    (h : migratePipelines env orgs = some res) :
    sleepAfterWrite res.2 = true := by
  unfold migratePipelines at h
  rcases Option.bind_eq_some.mp h with ⟨scopes, _hS, h⟩
  have h2 := migratePipelinesScopes_sleep env scopes res h []
  rw [List.append_nil] at h2
  exact h2

/-- C9 (counterexample): a three-page paginated listing performs three page
fetches and zero sleeps — the pagination engine applies no inter-call
delay after page fetches, contrary to the claim. -/
theorem C9_counterexample_no_sleep_after_fetch :
    countFetches (fetchPaginated (mockRespond 5 2) 2).2 = 3 ∧
    countSleeps (fetchPaginated (mockRespond 5 2) 2).2 = 0 :=
  ⟨by decide, by decide⟩

/-- C9 (amended): the fixed rate-limit delay runs after every destination
write call in each of the migration loops — organizations, projects and
pipelines alike, every write is followed by a sleep before any further
write — but the pagination engine sleeps after no page fetch at all. -/
theorem C9_sleep_after_writes_only (dest : Option (JVal → Nat × String))
    (dryRun : Bool) (orgs projects : List JVal)
    (env : PipelineEnv) (pipeOrgs : List JVal)
    (resO resJ resP : MigrationResult × List Event)
    (respond : Nat → HttpResponse) (pageSize : Nat)
    (contentPath totalPagesPath : String) (useOffset : Bool)
    (hO : migrateOrganizations dest dryRun orgs = some resO)
    (hJ : migrateProjects dest dryRun projects = some resJ)
    (hP : migratePipelines env pipeOrgs = some resP) :
    sleepAfterWrite resO.2 = true ∧
    sleepAfterWrite resJ.2 = true ∧
    sleepAfterWrite resP.2 = true ∧
    countSleeps (fetchPaginated respond pageSize contentPath totalPagesPath
      useOffset).2 = 0 := by
  refine ⟨(migrateOrganizations_props dest dryRun orgs resO hO).1, ?_,
    migratePipelines_sleep env pipeOrgs resP hP, ?_⟩
  · have h2 := migrateProjects_sleep dest dryRun projects resJ hJ []
    rw [List.append_nil] at h2
    exact h2
  · have hs := countSleeps_loop_eq respond pageSize contentPath totalPagesPath
      useOffset 10001 0 [] []
    unfold fetchPaginated
    simpa using hs

/-- Organization listing for the C9 witness. -/
def orgsC9 : List JVal :=
  [.jobj [("organization", .jobj [("identifier", .jstr "o9")])]]

/-- Project listing for the C9 witness. -/
def projectsC9 : List JVal :=
  [.jobj [("project", .jobj [("identifier", .jstr "p9"),
     ("orgIdentifier", .jstr "o9")])]]

/-- Destination client for the C9 witness (always succeeds). -/
def destC9 : Option (JVal → Nat × String) := some fun _ => (200, "ok")

/-- Pipeline-phase collaborators for the C9 witness: one successful inline
pipeline under org `o9`, project `p9`. -/
def envC9 : PipelineEnv :=
  { projectsOf := fun _ => [.jobj [("project", .jobj [("identifier", .jstr "p9")])]],
    listPipelines := fun _ _ => [.jobj [("pipeline", .jobj
      [("identifier", .jstr "pipe9"), ("name", .jstr "Pipe Nine")])]],
    pipelineDataOf := fun _ _ _ => .jobj [("yamlPipeline", .jstr "pipeline yaml")],
    createRespond := fun _ => (200, "ok"),
    importRespond := fun _ => (500, "unused"),
    parseYaml := fun _ => none,
    accountId := "acct",
    dryRun := false }

/-- C9 (witness): concrete one-item organization, project and pipeline runs
each sleep after their write, and a concrete pagination run never sleeps. -/
theorem C9_sleep_after_writes_only_witness :
    sleepAfterWrite ((⟨1, 0, 0⟩, [Event.exportFile "organization" (JVal.jstr "o9"),
      Event.writeCall "organization"
        (.jobj [("organization", .jobj [("identifier", .jstr "o9")])]),
      Event.sleep]) : MigrationResult × List Event).2 = true ∧
    sleepAfterWrite ((⟨1, 0, 0⟩, [Event.exportFile "project" (JVal.jstr "p9"),
      Event.writeCall "project"
        (.jobj [("project", .jobj [("identifier", .jstr "p9"),
          ("orgIdentifier", .jstr "o9")])]),
      Event.sleep]) : MigrationResult × List Event).2 = true ∧
    sleepAfterWrite ((⟨1, 0, 0⟩, [Event.exportFile "pipeline" (JVal.jstr "pipe9"),
      Event.writeCall "pipeline"
        (.jobj [("pipeline_yaml", .jstr "pipeline yaml"),
          ("accountId", .jstr "acct"), ("identifier", .jstr "pipe9"),
          ("name", .jstr "Pipe Nine"), ("orgIdentifier", .jstr "o9"),
          ("projectIdentifier", .jstr "p9")]),
      Event.sleep]) : MigrationResult × List Event).2 = true ∧
    countSleeps (fetchPaginated (mockRespond 5 2) 2 "data.content"
      "data.totalPages" false).2 = 0 :=
  C9_sleep_after_writes_only destC9 false orgsC9 projectsC9 envC9 orgsC9 _ _ _
    (mockRespond 5 2) 2 "data.content" "data.totalPages" false
    (by decide) (by decide) (by decide)

/-- C10: in every run, default organizations (`default`) and default
projects (`default_project`) only increment `skipped`: they produce no
export and no destination call, the phase traces contain no write or
export of the built-in identifiers, and `skipped` counts exactly the
built-in items. (For the project payload fact the listed project dicts are
assumed to have distinct keys, which JSON guarantees.) -/
theorem C10_default_resources_skipped (dest : Option (JVal → Nat × String))
    (dryRun : Bool) (orgs projects : List JVal)
    (resO resP : MigrationResult × List Event)
    (hnd : ∀ p ∈ projects, projKeysNodup p = true)
    (hO : migrateOrganizations dest dryRun orgs = some resO)
    (hP : migrateProjects dest dryRun projects = some resP) :
    resO.1.skipped = (orgs.filter isDefaultOrgItem).length ∧
    (∀ e ∈ resO.2, eventCreatesDefault "organization" "default" e = false ∧
      eventExportsDefault "organization" "default" e = false) ∧
    (∀ org ∈ orgs, isDefaultOrgItem org = true →
      migrateOrgItem dest dryRun org = some (⟨0, 0, 1⟩, [])) ∧
    resP.1.skipped = (projects.filter isDefaultProjItem).length ∧
    (∀ e ∈ resP.2, eventCreatesDefault "project" "default_project" e = false ∧
      eventExportsDefault "project" "default_project" e = false) ∧
    (∀ project ∈ projects, isDefaultProjItem project = true →
      migrateProjItem dest dryRun project = some (⟨0, 0, 1⟩, [])) := by
  obtain ⟨_, hskipO, hevO⟩ := migrateOrganizations_props dest dryRun orgs resO hO
  obtain ⟨_, hskipP, hevP⟩ := migrateProjects_props dest dryRun projects resP hnd hP
  exact ⟨hskipO, hevO,
    fun org _ hd => migrateOrgItem_default dest dryRun org hd,
    hskipP, hevP,
    fun project _ hd => migrateProjItem_default dest dryRun project hd⟩

/-- Organization listing with the built-in default org for the C10
witness. -/
def orgsC10 : List JVal :=
  [.jobj [("organization", .jobj [("identifier", .jstr "default")])],
   .jobj [("organization", .jobj [("identifier", .jstr "oA")])]]

/-- Project listing with the built-in default project for the C10
witness. -/
def projectsC10 : List JVal :=
  [.jobj [("project", .jobj [("identifier", .jstr "default_project"),
     ("orgIdentifier", .jstr "oA")])],
   .jobj [("project", .jobj [("identifier", .jstr "pB"),
     ("orgIdentifier", .jstr "oA")])]]

/-- Destination client for the C10 witness. -/
def destC10 : Option (JVal → Nat × String) := some fun _ => (200, "created")

/-- C10 (witness): both default items are skipped without any call on a
concrete two-orgs, two-projects run. -/
theorem C10_default_resources_skipped_witness :
    ((⟨1, 0, 1⟩, [Event.exportFile "organization" (JVal.jstr "oA"),
       Event.writeCall "organization"
         (.jobj [("organization", .jobj [("identifier", .jstr "oA")])]),
       Event.sleep]) : MigrationResult × List Event).1.skipped =
      (orgsC10.filter isDefaultOrgItem).length ∧
    (∀ e ∈ ((⟨1, 0, 1⟩, [Event.exportFile "organization" (JVal.jstr "oA"),
       Event.writeCall "organization"
         (.jobj [("organization", .jobj [("identifier", .jstr "oA")])]),
       Event.sleep]) : MigrationResult × List Event).2,
      eventCreatesDefault "organization" "default" e = false ∧
      eventExportsDefault "organization" "default" e = false) ∧
    (∀ org ∈ orgsC10, isDefaultOrgItem org = true →
      migrateOrgItem destC10 false org = some (⟨0, 0, 1⟩, [])) ∧
    ((⟨1, 0, 1⟩, [Event.exportFile "project" (JVal.jstr "pB"),
       Event.writeCall "project"
         (.jobj [("project", .jobj [("identifier", .jstr "pB"),
           ("orgIdentifier", .jstr "oA")])]),
       Event.sleep]) : MigrationResult × List Event).1.skipped =
      (projectsC10.filter isDefaultProjItem).length ∧
    (∀ e ∈ ((⟨1, 0, 1⟩, [Event.exportFile "project" (JVal.jstr "pB"),
       Event.writeCall "project"
         (.jobj [("project", .jobj [("identifier", .jstr "pB"),
           ("orgIdentifier", .jstr "oA")])]),
       Event.sleep]) : MigrationResult × List Event).2,
      eventCreatesDefault "project" "default_project" e = false ∧
      eventExportsDefault "project" "default_project" e = false) ∧
    (∀ project ∈ projectsC10, isDefaultProjItem project = true →
      migrateProjItem destC10 false project = some (⟨0, 0, 1⟩, [])) :=
  C10_default_resources_skipped destC10 false orgsC10 projectsC10 _ _
    (by decide) (by decide) (by decide)

end HarnessMigration
